import Mathlib

/-!
# Verification of the `conciliation` bank-reconciliation engine

Shallow embedding of the repository's Python sources:

* `src/scripts/suggest_matches.py`      — the matching engine (`run_suggestions`,
  `suggest_transaction_links`, the `check_*` helpers, `normalize_name`).
* `src/python_services/process_bank_file.py` — fingerprinting (`create_transaction_hash`),
  ingestion (`insert_transactions`), column resolution (`find_column`, `process_file`).
* `src/scripts/bank_transaction_processor.py` — the 3-field `create_hash`, its own
  `process_file` column gate.
* `src/scripts/fetch_orders.py`        — the amount parser `parse_numeric_value`.

Modelling conventions:

* Python `float`/SQL `NUMERIC` amounts are modelled as exact rationals `ℚ`
  (decimal literals of the source are exact in this model; no binary rounding).
* Python strings are Lean `String`s; `None` is `Option.none`; Python falsiness of a
  string argument (`not s`) is `none` or `some ""`.
* Dates stored in the database are modelled as `DateV`: SQL `NULL` or a string value.
  The string branch of `parse_date` (`datetime.strptime(s.split(' ')[0], '%Y-%m-%d')`)
  is implemented in full, including proleptic-Gregorian day ordinals
  (`datetime.date.toordinal`), so day differences are computed exactly as in CPython.
* `fuzzywuzzy.fuzz.ratio` is implemented from its underlying algorithm: CPython
  `difflib.SequenceMatcher` with no junk predicate (`SequenceMatcher(None, a, b)`),
  `ratio = 2*M/T` (`1.0` when `T = 0`), scaled by 100 and rounded half-to-even
  (`utils.intr = int(round(_))`).  The `autojunk` heuristic of `difflib` only alters
  results when the second string has ≥ 200 characters; it is not modelled, and no
  statement below evaluates the scorer on such strings.
* SHA-256 is implemented in full (FIPS 180-4) over UTF-8 byte lists; test-vector
  theorems below check the implementation against the standard digests.
* Database semantics: a `Store` is lists of rows; `SELECT ... WHERE` is `List.filter`,
  `UPDATE ... WHERE key = v` is `List.map` with a conditional rewrite (note: the
  source's UPDATE statements have *no* `reconciliation_status` guard, only a key
  equality — this is preserved faithfully), `INSERT ... ON CONFLICT DO NOTHING` is a
  guarded append.  A run with exception semantics (`run_suggestions_exc`) models
  `cursor.execute` failures: the source wraps the whole run in
  `try/except: conn.rollback(); raise`, committing only at the very end, so a failed
  write leaves the committed store equal to the initial store and re-raises.
-/

namespace Conciliation

set_option maxRecDepth 100000

/- Core `Rat` arithmetic is `@[irreducible]`, which stops `decide` from evaluating
concrete rational computations in the elaborator (the kernel itself is unaffected).
Restore semireducibility locally so closed statements about stores with rational
amounts can be settled by `decide`. -/
set_option allowUnsafeReducibility true
attribute [local semireducible] Rat.add Rat.mul Rat.inv Rat.sub Rat.ofScientific

/-! ## Python-style string primitives -/

/-- Python `\s` on the relevant ASCII range (`str.strip` / `re.search(r'\s', ...)`).
The sources only meet ASCII whitespace; Unicode whitespace is not modelled. -/
def pyIsSpace (c : Char) : Bool :=
  c = ' ' || c = '\t' || c = '\n' || c = '\x0d' || c = '\x0b' || c = '\x0c'

/-- Python `str.strip()` (default: whitespace at both ends). -/
def pyStrip (s : String) : String :=
  String.mk (((s.data.dropWhile pyIsSpace).reverse.dropWhile pyIsSpace).reverse)

/-- ASCII lower-casing, as the sources apply `.lower()` to ASCII header/reference
text. -/
def charLower (c : Char) : Char :=
  if 'A' ≤ c ∧ c ≤ 'Z' then Char.ofNat (c.toNat + 32) else c

/-- Python `str.lower()` restricted to ASCII. -/
def pyLower (s : String) : String := String.mk (s.data.map charLower)

/-- ASCII decimal digit test (`\d` in the source regexes; the inputs under
consideration are ASCII). -/
def isDigit (c : Char) : Bool := '0' ≤ c && c ≤ '9'

/-- Helper of `pySplit`: accumulate the current word (reversed) while scanning. -/
def pySplitAux : List Char → List Char → List String
  | [], [] => []
  | [], acc => [String.mk acc.reverse]
  | c :: cs, acc =>
    if pyIsSpace c then
      (if acc = [] then pySplitAux cs [] else String.mk acc.reverse :: pySplitAux cs [])
    else pySplitAux cs (c :: acc)

/-- Python `str.split()` with no argument: split on whitespace runs, no empty
fields. -/
def pySplit (s : String) : List String := pySplitAux s.data []

/-- Count occurrences of a character (Python `str.count` for a 1-char needle). -/
def countChar (c : Char) (s : String) : ℕ := s.data.count c

/-- Python `str.rfind` for a single character: last index, `-1` if absent. -/
def pyRfind (c : Char) (s : String) : ℤ :=
  match s.data.reverse.findIdx? (· = c) with
  | some k => (s.data.length : ℤ) - 1 - (k : ℤ)
  | none => -1

/-- Digits of an ASCII decimal numeral to a natural number. -/
def digitsToNat (l : List Char) : ℕ := l.foldl (fun n c => 10 * n + (c.toNat - 48)) 0

/-! ## UTF-8 encoding (Python `str.encode('utf-8')`) -/

/-- UTF-8 bytes of one code point. -/
def utf8Char (c : Char) : List ℕ :=
  let n := c.toNat
  if n < 128 then [n]
  else if n < 2048 then [192 + n / 64, 128 + n % 64]
  else if n < 65536 then [224 + n / 4096, 128 + (n / 64) % 64, 128 + n % 64]
  else [240 + n / 262144, 128 + (n / 4096) % 64, 128 + (n / 64) % 64, 128 + n % 64]

/-- UTF-8 byte list of a string. -/
def utf8Encode (s : String) : List ℕ := s.data.flatMap utf8Char

/-! ## SHA-256 (FIPS 180-4), over byte lists, 32-bit words as `ℕ` mod `2^32` -/

/-- The constant 2^32. -/
def M32 : ℕ := 4294967296

/-- Addition modulo 2^32. -/
def add32 (a b : ℕ) : ℕ := (a + b) % M32

/-- Right rotation of a 32-bit word. -/
def rotr (n x : ℕ) : ℕ := ((x >>> n) ||| (x <<< (32 - n))) % M32

/-- SHA-256 Σ₀. -/
def bsig0 (x : ℕ) : ℕ := rotr 2 x ^^^ rotr 13 x ^^^ rotr 22 x

/-- SHA-256 Σ₁. -/
def bsig1 (x : ℕ) : ℕ := rotr 6 x ^^^ rotr 11 x ^^^ rotr 25 x

/-- SHA-256 σ₀. -/
def ssig0 (x : ℕ) : ℕ := rotr 7 x ^^^ rotr 18 x ^^^ (x >>> 3)

/-- SHA-256 σ₁. -/
def ssig1 (x : ℕ) : ℕ := rotr 17 x ^^^ rotr 19 x ^^^ (x >>> 10)

/-- SHA-256 Ch. -/
def shaCh (x y z : ℕ) : ℕ := (x &&& y) ^^^ ((x ^^^ 4294967295) &&& z)

/-- SHA-256 Maj. -/
def shaMaj (x y z : ℕ) : ℕ := (x &&& y) ^^^ (x &&& z) ^^^ (y &&& z)

/-- The 64 SHA-256 round constants. -/
def K64 : List ℕ :=
  [1116352408, 1899447441, 3049323471, 3921009573, 961987163,
   1508970993, 2453635748, 2870763221, 3624381080, 310598401,
   607225278, 1426881987, 1925078388, 2162078206, 2614888103,
   3248222580, 3835390401, 4022224774, 264347078, 604807628,
   770255983, 1249150122, 1555081692, 1996064986, 2554220882,
   2821834349, 2952996808, 3210313671, 3336571891, 3584528711,
   113926993, 338241895, 666307205, 773529912, 1294757372,
   1396182291, 1695183700, 1986661051, 2177026350, 2456956037,
   2730485921, 2820302411, 3259730800, 3345764771, 3516065817,
   3600352804, 4094571909, 275423344, 430227734, 506948616,
   659060556, 883997877, 958139571, 1322822218, 1537002063,
   1747873779, 1955562222, 2024104815, 2227730452, 2361852424,
   2428436474, 2756734187, 3204031479, 3329325298]

/-- Initial SHA-256 state. -/
def H0 : List ℕ :=
  [1779033703, 3144134277, 1013904242, 2773480762,
   1359893119, 2600822924, 528734635, 1541459225]

/-- Big-endian 8-byte encoding of a (bit-)length. -/
def be64 (n : ℕ) : List ℕ :=
  [(n >>> 56) % 256, (n >>> 48) % 256, (n >>> 40) % 256, (n >>> 32) % 256,
   (n >>> 24) % 256, (n >>> 16) % 256, (n >>> 8) % 256, n % 256]

/-- SHA-256 padding: append 0x80, zeros to 56 mod 64, then the 64-bit bit length. -/
def shaPad (msg : List ℕ) : List ℕ :=
  let L := msg.length
  let zeros := (64 - ((L + 9) % 64)) % 64
  msg ++ [128] ++ List.replicate zeros 0 ++ be64 (8 * L)

/-- Pack bytes into big-endian 32-bit words. -/
def toWords : List ℕ → List ℕ
  | a :: b :: c :: d :: rest => (((a * 256 + b) * 256 + c) * 256 + d) :: toWords rest
  | _ => []

/-- Helper of `chunk16`: structural recursion on a fuel bound (the list length),
so that the definition reduces inside the kernel. -/
def chunk16Go : ℕ → List ℕ → List (List ℕ)
  | 0, _ => []
  | _, [] => []
  | f + 1, w :: rest => ((w :: rest).take 16) :: chunk16Go f ((w :: rest).drop 16)

/-- Split a word list into blocks of 16 words. -/
def chunk16 (l : List ℕ) : List (List ℕ) := chunk16Go l.length l

/-- Message-schedule extension: append `fuel` further words to `w`. -/
def schedExt (w : List ℕ) : ℕ → List ℕ
  | 0 => w
  | f + 1 =>
    let i := w.length
    let nw := add32 (add32 (ssig1 (w.getD (i - 2) 0)) (w.getD (i - 7) 0))
                    (add32 (ssig0 (w.getD (i - 15) 0)) (w.getD (i - 16) 0))
    schedExt (w ++ [nw]) f

/-- Full 64-word message schedule of one block. -/
def schedule (block : List ℕ) : List ℕ := schedExt block 48

/-- The 64 compression rounds, on the 8-word working state. -/
def shaRounds (w : List ℕ) (h : List ℕ) : List ℕ :=
  (List.range 64).foldl (fun st i =>
    match st with
    | [a, b, c, d, e, f, g, hh] =>
      let t1 := add32 hh (add32 (bsig1 e) (add32 (shaCh e f g) (add32 (K64.getD i 0) (w.getD i 0))))
      let t2 := add32 (bsig0 a) (shaMaj a b c)
      [add32 t1 t2, a, b, c, add32 d t1, e, f, g]
    | st => st) h

/-- Compress one 16-word block into the hash state. -/
def shaCompress (h : List ℕ) (block : List ℕ) : List ℕ :=
  List.zipWith add32 h (shaRounds (schedule block) h)

/-- SHA-256 digest of a byte list, as 8 words. -/
def sha256Digest (msg : List ℕ) : List ℕ := (chunk16 (toWords (shaPad msg))).foldl shaCompress H0

/-- One lowercase hex digit. -/
def hexDigit (n : ℕ) : Char := ("0123456789abcdef".data).getD n '0'

/-- Lowercase hex of a 32-bit word (8 digits). -/
def wordHex (w : ℕ) : List Char :=
  [hexDigit ((w >>> 28) % 16), hexDigit ((w >>> 24) % 16), hexDigit ((w >>> 20) % 16),
   hexDigit ((w >>> 16) % 16), hexDigit ((w >>> 12) % 16), hexDigit ((w >>> 8) % 16),
   hexDigit ((w >>> 4) % 16), hexDigit (w % 16)]

/-- The `hashlib.sha256(bytes).hexdigest()`. -/
def sha256Hex (msg : List ℕ) : String := String.mk ((sha256Digest msg).flatMap wordHex)

/-- The `hashlib.sha256(s.encode('utf-8')).hexdigest()`. -/
def sha256HexStr (s : String) : String := sha256Hex (utf8Encode s)

/-! ## Proleptic-Gregorian calendar (CPython `datetime.date.toordinal`) -/

/-- Gregorian leap-year rule. -/
def isLeap (y : ℕ) : Bool := (y % 4 = 0 && y % 100 ≠ 0) || y % 400 = 0

/-- Length of month `m` (1-based) in year `y`. -/
def daysInMonth (y m : ℕ) : ℕ :=
  [31, if isLeap y then 29 else 28, 31, 30, 31, 30, 31, 31, 30, 31, 30, 31].getD (m - 1) 0

/-- Days in year `y` strictly before month `m`. -/
def daysBeforeMonth (y m : ℕ) : ℕ :=
  ((List.range (m - 1)).map (fun i => daysInMonth y (i + 1))).sum

/-- The `datetime.date(y, m, d).toordinal()`: day 1 is 0001-01-01. -/
def toOrdinal (y m d : ℕ) : ℕ :=
  365 * (y - 1) + (y - 1) / 4 - (y - 1) / 100 + (y - 1) / 400 + daysBeforeMonth y m + d

/-- The `datetime.strptime(s, '%Y-%m-%d').date().toordinal()`, returning `none` where
`strptime` raises `ValueError`.  Per CPython `_strptime`, `%Y` matches exactly four
digits and `%m`/`%d` one or two digits; the day is validated against the month
length. -/
def parseISODate (s : String) : Option ℕ :=
  match s.data.splitOn '-' with
  | [ys, ms, ds] =>
    if ys.length = 4 && ys.all isDigit &&
       1 ≤ ms.length && ms.length ≤ 2 && ms.all isDigit &&
       1 ≤ ds.length && ds.length ≤ 2 && ds.all isDigit then
      let y := digitsToNat ys
      let m := digitsToNat ms
      let d := digitsToNat ds
      if 1 ≤ y && 1 ≤ m && m ≤ 12 && 1 ≤ d && d ≤ daysInMonth y m then
        some (toOrdinal y m d)
      else none
    else none
  | _ => none

deriving instance DecidableEq for Except

/-- A date value as read from the store: SQL `NULL` or a string.  (The
`isinstance(date_val, datetime)` branch of the source's `parse_date` concerns
driver-produced `datetime` objects, which in this model are already rendered as
ISO strings.) -/
inductive DateV
  | vnull
  | vstr (s : String)
deriving DecidableEq, Repr

/-- The `suggest_matches.parse_date`: `None → None`; a string is split at the first
space and parsed as `%Y-%m-%d`, `None` on failure.  The result is the day
ordinal. -/
def parse_date : DateV → Option ℕ
  | DateV.vnull => none
  | DateV.vstr s => parseISODate (String.mk ((s.data.splitOn ' ').headD s.data))

/-! ## `suggest_matches.py`: the four check helpers -/

/-- The `suggest_matches.check_amount_match`: `abs(float(bank) - float(order)) <=
threshold` with `threshold=0.99`.  Amounts are exact rationals in this model, so
the `except: return False` branch (unconvertible values) does not arise. -/
def check_amount_match (bank_amount order_amount : ℚ) (threshold : ℚ := 99 / 100) : Bool :=
  |bank_amount - order_amount| ≤ threshold

/-- The `suggest_matches.check_date_match`: both dates must parse, and the day
difference `bank - order` must lie in `[-days_before, days_after]`
(defaults `2` before, `3` after). -/
def check_date_match (bank_date order_date : DateV)
    (days_before : ℤ := 2) (days_after : ℤ := 3) : Bool :=
  match parse_date bank_date, parse_date order_date with
  | some bd, some od => -days_before ≤ (bd : ℤ) - (od : ℤ) && (bd : ℤ) - (od : ℤ) ≤ days_after
  | _, _ => false

/-- The `suggest_matches.check_reference_match`: falsy on either side is `False`;
otherwise compare `strip().lower()` of both. -/
def check_reference_match : Option String → Option String → Bool
  | some b, some o =>
    if b = "" || o = "" then false else pyLower (pyStrip b) = pyLower (pyStrip o)
  | _, _ => false

/-- The character class of `suggest_matches.normalize_name`'s
`re.sub(r"['\"`.,;:!?()\\-]", "", name)`: apostrophe, double quote, backtick,
period, comma, semicolon, colon, bang, question mark, parens, backslash,
hyphen. -/
def namePunct (c : Char) : Bool :=
  c = Char.ofNat 39 || c = Char.ofNat 34 || c = Char.ofNat 96 || c = '.' || c = ',' ||
  c = ';' || c = ':' || c = '!' || c = '?' || c = '(' || c = ')' || c = Char.ofNat 92 || c = '-'

/-- The `suggest_matches.normalize_name`: falsy input gives `""`; otherwise strip the
punctuation class, then `' '.join(name.strip().lower().split())`. -/
def normalize_name : Option String → String
  | none => ""
  | some s =>
    if s = "" then ""
    else
      let stripped := String.mk (s.data.filter (fun c => !namePunct c))
      " ".intercalate (pySplit (pyLower (pyStrip stripped)))

/-! ## `fuzzywuzzy.fuzz.ratio` via `difflib.SequenceMatcher`

`fuzz.ratio(s1, s2) = utils.intr(100 * SequenceMatcher(None, s1, s2).ratio())`,
`ratio = 2*M/T` where `M` is the total size of the matching blocks and
`T = len(s1) + len(s2)` (`1.0` when `T = 0`), and `intr = int(round(_))` rounds
half to even. -/

/-- One row of `find_longest_match`'s `j2len` dynamic program: `row[j]` is the
length of the common run ending at the current `a`-position and `b`-position `j`. -/
def nextRow (c : Char) (bs : List Char) (prev : List ℕ) : List ℕ :=
  (List.range bs.length).map (fun j =>
    if bs.get? j = some c then (if j = 0 then 0 else prev.getD (j - 1) 0) + 1 else 0)

/-- Fold one row into the best block `(besti, bestj, bestk)`, scanning `j`
ascending and updating only on strictly larger run length — exactly difflib's
tie-break (earliest in `a`, then earliest in `b`). -/
def bestInRow (i : ℕ) (row : List ℕ) (best : ℕ × ℕ × ℕ) : ℕ × ℕ × ℕ :=
  (List.range row.length).foldl (fun b j =>
    let k := row.getD j 0
    if k > b.2.2 then (i + 1 - k, j + 1 - k, k) else b) best

/-- Scan all of `as` (index `i` ascending) carrying the previous `j2len` row. -/
def flmGo (bs : List Char) : List Char → ℕ → List ℕ → ℕ × ℕ × ℕ → ℕ × ℕ × ℕ
  | [], _, _, best => best
  | c :: as, i, prev, best =>
    let row := nextRow c bs prev
    flmGo bs as (i + 1) row (bestInRow i row best)

/-- The `SequenceMatcher(None, as, bs).find_longest_match()` with no junk: the
longest matching block `(i, j, k)`, ties broken towards the smallest `i`, then
the smallest `j`.  (Without a junk predicate the post-loop junk-extension phases
of difflib are no-ops, since the dynamic program already records maximal runs.) -/
def findLongestMatch (as bs : List Char) : ℕ × ℕ × ℕ :=
  flmGo bs as 0 (List.replicate bs.length 0) (0, 0, 0)

/-- Total size `M` of the matching blocks (`get_matching_blocks`): recurse on both
sides of the longest match.  Structural fuel (`length + length + 1`) bounds the
recursion depth; it never runs out on well-formed matches. -/
def matchesGo : ℕ → List Char → List Char → ℕ
  | 0, _, _ => 0
  | fuel + 1, as, bs =>
    let t := findLongestMatch as bs
    if t.2.2 = 0 then 0
    else
      matchesGo fuel (as.take t.1) (bs.take t.2.1) + t.2.2 +
        matchesGo fuel (as.drop (t.1 + t.2.2)) (bs.drop (t.2.1 + t.2.2))

/-- Total matched size `M` for two character lists. -/
def matchesCount (as bs : List Char) : ℕ := matchesGo (as.length + bs.length + 1) as bs

/-- The `int(round(n / d))` for exact nonnegative rationals `n/d` (`d > 0`): round
half to even.  (CPython computes this on a binary double; the difference only
shows on ties that are not exactly representable, which no statement below
evaluates.) -/
def pyRoundDiv (n d : ℕ) : ℕ :=
  let q := n / d
  let r := n % d
  if 2 * r < d then q else if 2 * r > d then q + 1 else if q % 2 = 0 then q else q + 1

/-- The `fuzzywuzzy.fuzz.ratio` on two strings (0–100). -/
def fuzz_ratio (s1 s2 : String) : ℕ :=
  let t := s1.data.length + s2.data.length
  if t = 0 then 100 else pyRoundDiv (200 * matchesCount s1.data s2.data) t

/-- The `suggest_matches.check_name_match`: falsy on either side is score `0`;
otherwise `fuzz.ratio` of the normalized names.  (The source's `threshold=70`
parameter is unused in its body.) -/
def check_name_match (bank_name order_name : Option String) : ℕ :=
  if bank_name.getD "" = "" || order_name.getD "" = "" then 0
  else fuzz_ratio (normalize_name bank_name) (normalize_name order_name)

/-! ## Fingerprints

`process_bank_file.create_transaction_hash` reads the four fields out of
`row_data` with `str(row_data.get(key, ''))`; a missing key yields the empty
string.  Fields are modelled at the already-`str()`-rendered level: `Option
String` with `none` for an absent key. -/

/-- The `row_data` argument of `process_bank_file.create_transaction_hash`. -/
structure HashRow where
  date : Option String
  balance : Option String
  credit_amount : Option String
  payer_sender : Option String
deriving DecidableEq

/-- The `hash_input` string `f"{balance}|{date}|{amount}|{payer}"` of
`process_bank_file.create_transaction_hash` (note the source's field order:
balance, date, amount, payer). -/
def hashInput (row : HashRow) : String :=
  row.balance.getD "" ++ "|" ++ row.date.getD "" ++ "|" ++
    row.credit_amount.getD "" ++ "|" ++ row.payer_sender.getD ""

/-- The `process_bank_file.create_transaction_hash`. -/
def create_transaction_hash (row : HashRow) : String := sha256HexStr (hashInput row)

/-- The `bank_transaction_processor.create_hash`: SHA-256 of
`f"{balance}|{date_value}|{amount}"` — only three fields, no payer. -/
def create_hash (balance date_value amount : String) : String :=
  sha256HexStr (balance ++ "|" ++ date_value ++ "|" ++ amount)

set_option linter.unusedVariables false in
/-- The fingerprint `bank_transaction_processor.process_file` assigns to a row
(its line 192): `create_hash(balance, row[date_col], credit_amount)`.  The row's
payer value does not reach the hash. -/
def processorRowFingerprint (date payer amount balance : String) : String :=
  create_hash balance date amount

/-! ## `fetch_orders.parse_numeric_value` -/

/-- A value as handed to `parse_numeric_value`: a finite native number, a string,
or `None`/`NaN` (the `pd.isna`/non-finite branch; non-finite floats have no `ℚ`
representative and are collapsed into `pnone`). -/
inductive PVal
  | pnum (q : ℚ)
  | pstr (s : String)
  | pnone
deriving DecidableEq

/-- The `re.search(r',\d{1,2}$', t)`: `t` ends in a comma followed by one or two
digits. -/
def euroSuffix (t : String) : Bool :=
  match t.data.reverse with
  | a :: b :: c :: _ => (isDigit a && b = ',') || (isDigit a && isDigit b && c = ',')
  | [a, b] => isDigit a && b = ','
  | _ => false

/-- The `t.replace('.', '').replace(',', '.')`. -/
def stripDotsCommaToDot (t : String) : String :=
  String.mk ((t.data.filter (fun c => c ≠ '.')).map (fun c => if c = ',' then '.' else c))

/-- The `re.match(r'^-?\d+(\.\d+)?$', s)` as a Boolean (full-match because of the
anchors; the rejected-whitespace guard earlier rules out the `$`-before-newline
subtlety). -/
def matchNumRe (s : String) : Bool :=
  let l := match s.data with
    | '-' :: rest => rest
    | l => l
  match l.splitOn '.' with
  | [as] => !as.isEmpty && as.all isDigit
  | [as, bs] => !as.isEmpty && !bs.isEmpty && as.all isDigit && bs.all isDigit
  | _ => false

/-- Exact value of a string already validated by `matchNumRe` (Python's `float`
rounds to binary; amounts here are exact rationals). -/
def floatOfNormalized (s : String) : ℚ :=
  let p : ℚ × List Char := match s.data with
    | '-' :: rest => (-1, rest)
    | l => (1, l)
  match p.2.splitOn '.' with
  | [as] => p.1 * (digitsToNat as : ℚ)
  | [as, bs] => p.1 * ((digitsToNat as : ℚ) + (digitsToNat bs : ℚ) / ((10 : ℚ) ^ bs.length))
  | _ => 0

/-- The `fetch_orders.parse_numeric_value`, branch for branch:
strip; reject empty; reject any remaining whitespace; reject `>1` dots with no
comma; reject `>1` commas; when both separators occur, reject if the last dot is
after the last comma; normalize the European form (single comma followed by 1–2
trailing digits) by deleting dots and turning the comma into a dot; finally the
result must match `^-?\d+(\.\d+)?$`. -/
def parse_numeric_value : PVal → Option ℚ
  | PVal.pnum q => some q
  | PVal.pnone => none
  | PVal.pstr val =>
    let t := pyStrip val
    if t = "" then none
    else if t.data.any pyIsSpace then none
    else if countChar '.' t > 1 && countChar ',' t = 0 then none
    else if countChar ',' t > 1 then none
    else if countChar '.' t > 0 && countChar ',' t > 0 && pyRfind '.' t > pyRfind ',' t then none
    else
      let normalized := if countChar ',' t = 1 && euroSuffix t then stripDotsCommaToDot t else t
      if matchNumRe normalized then some (floatOfNormalized normalized) else none

/-! ## The store (`bank_transactions`, `orders`, `transaction_links`) -/

/-- A row of `bank_transactions` (the columns the engine reads and writes). -/
structure BankTxn where
  transaction_hash : String
  payer_sender : Option String
  transaction_date : DateV
  credit_amount : ℚ
  description : String
  extracted_reference : Option String
  reconciliation_status : String
  match_reference_flag : Bool
  match_name_score : ℕ
  diff_days : Option ℤ
  diff_amount : Option ℚ
  order_id : Option ℕ
deriving DecidableEq

/-- A row of `orders` (the columns the engine reads and writes). -/
structure Order where
  order_id : ℕ
  customer_name : Option String
  order_date : DateV
  amount_total_fee : ℚ
  order_bank_reference : Option String
  reconciliation_status : String
  match_reference_flag : Bool
  match_name_score : ℕ
  diff_days : Option ℤ
  diff_amount : Option ℚ
  transaction_ids : List String
deriving DecidableEq

/-- A row of `transaction_links`. -/
structure TransactionLink where
  primary_transaction_hash : String
  linked_transaction_hash : String
  link_type : String
  status : String
deriving DecidableEq

/-- The relational store. -/
structure Store where
  bank_transactions : List BankTxn
  orders : List Order
  transaction_links : List TransactionLink
deriving DecidableEq

/-! ## Pass A: `suggest_transaction_links` (commission linking) -/

/-- The commission-candidate `SELECT`: `reconciliation_status = 'unmatched' AND
3.50 <= credit_amount <= 4.50`. -/
def is_commission (r : BankTxn) : Bool :=
  decide (r.reconciliation_status = "unmatched") &&
  decide ((7 : ℚ) / 2 ≤ r.credit_amount) && decide (r.credit_amount ≤ (9 : ℚ) / 2)

/-- The main-candidate `SELECT`: `reconciliation_status = 'unmatched' AND
credit_amount > 10`. -/
def is_main (r : BankTxn) : Bool :=
  decide (r.reconciliation_status = "unmatched") && decide ((10 : ℚ) < r.credit_amount)

/-- The `existing_links` set: both orientations of every stored link. -/
def link_pairs (links : List TransactionLink) : List (String × String) :=
  links.flatMap (fun l =>
    [(l.primary_transaction_hash, l.linked_transaction_hash),
     (l.linked_transaction_hash, l.primary_transaction_hash)])

/-- The `total_score` of one commission/main pair: `100` on a reference match,
else the name score when it is `≥ 80`, else `0`. -/
def commission_score (comm main : BankTxn) : ℕ :=
  if check_reference_match comm.extracted_reference main.extracted_reference then 100
  else
    let ns := check_name_match comm.payer_sender main.payer_sender
    if 80 ≤ ns then ns else 0

/-- The inner loop over `main_txns`: skip already-linked pairs, require both
dates to parse with `|comm - main| ≤ 5` days, and keep the strictly best score
(first seen wins ties). -/
def pick_best (existing : List (String × String)) (comm : BankTxn) (mains : List BankTxn) :
    ℕ × Option BankTxn :=
  mains.foldl (fun best main =>
    if (main.transaction_hash, comm.transaction_hash) ∈ existing then best
    else
      match parse_date main.transaction_date, parse_date comm.transaction_date with
      | some md, some cd =>
        if 5 < |(cd : ℤ) - (md : ℤ)| then best
        else
          let total := commission_score comm main
          if best.1 < total then (total, some main) else best
      | _, _ => best) (0, none)

/-- The outer loop over `commission_txns`, accumulating new link rows, the
`linked_commissions` set and `links_count`. -/
def link_loop (existing : List (String × String)) (mains : List BankTxn) :
    List BankTxn → List TransactionLink → List String → ℕ → List TransactionLink × ℕ
  | [], acc, _, c => (acc, c)
  | comm :: rest, acc, linked, c =>
    if comm.transaction_hash ∈ linked then link_loop existing mains rest acc linked c
    else
      match (pick_best existing comm mains).2 with
      | some m =>
        if 70 ≤ (pick_best existing comm mains).1 then
          link_loop existing mains rest
            (acc ++ [⟨m.transaction_hash, comm.transaction_hash, "commission", "suggested"⟩])
            (linked ++ [comm.transaction_hash]) (c + 1)
        else link_loop existing mains rest acc linked c
      | none => link_loop existing mains rest acc linked c

/-- The `suggest_transaction_links`: the new link rows it `INSERT`s and its
`links_count` return value.  It touches no other table. -/
def suggest_transaction_links (s : Store) : List TransactionLink × ℕ :=
  link_loop (link_pairs s.transaction_links)
    (s.bank_transactions.filter is_main)
    (s.bank_transactions.filter is_commission) [] [] 0

/-! ## Pass B/C: the bank-transaction-to-order loop of `run_suggestions` -/

/-- The `SELECT ... FROM bank_transactions WHERE reconciliation_status =
'unmatched'` snapshot. -/
def unmatchedBank (s : Store) : List BankTxn :=
  s.bank_transactions.filter (fun r => decide (r.reconciliation_status = "unmatched"))

/-- The `SELECT ... FROM orders WHERE reconciliation_status = 'unmatched'`
snapshot. -/
def unmatchedOrders (s : Store) : List Order :=
  s.orders.filter (fun r => decide (r.reconciliation_status = "unmatched"))

/-- The inner order scan for one bank transaction: skip orders already in
`matched_order_ids`; skip unless both the amount tolerance and the date window
hold; then accept on a reference match (regardless of name score), else on a
name score strictly above 70; `break` at the first acceptance. -/
def try_match_order (bank : BankTxn) (matched_orders : List ℕ) : List Order → Option Order
  | [] => none
  | o :: rest =>
    if o.order_id ∈ matched_orders then try_match_order bank matched_orders rest
    else if !check_amount_match bank.credit_amount o.amount_total_fee then
      try_match_order bank matched_orders rest
    else if !check_date_match bank.transaction_date o.order_date then
      try_match_order bank matched_orders rest
    else if check_reference_match bank.extracted_reference o.order_bank_reference then some o
    else if 70 < check_name_match bank.payer_sender o.customer_name then some o
    else try_match_order bank matched_orders rest

/-- The two `UPDATE` statements issued on acceptance of a pair.  Both are keyed
only on `transaction_hash = %s` / `order_id = %s` — the source has no
`reconciliation_status` guard in either `WHERE` clause.  `diff_days` uses
`.getD 0` for the parsed dates: acceptance implies `check_date_match`, so both
dates parsed.  `match_reference_flag` is `true` exactly in the reference branch,
which is the branch taken whenever `check_reference_match` holds. -/
def apply_match (s : Store) (bank : BankTxn) (o : Order) : Store :=
  let refm := check_reference_match bank.extracted_reference o.order_bank_reference
  let score := check_name_match bank.payer_sender o.customer_name
  let dd := |((parse_date bank.transaction_date).getD 0 : ℤ) -
             ((parse_date o.order_date).getD 0 : ℤ)|
  let da := |bank.credit_amount - o.amount_total_fee|
  { s with
    bank_transactions := s.bank_transactions.map (fun r =>
      if r.transaction_hash = bank.transaction_hash then
        { r with
          reconciliation_status := "suggested_match"
          match_reference_flag := refm
          match_name_score := score
          diff_days := some dd
          diff_amount := some da
          order_id := some o.order_id }
      else r)
    orders := s.orders.map (fun r =>
      if r.order_id = o.order_id then
        { r with
          reconciliation_status := "suggested_match"
          match_reference_flag := refm
          match_name_score := score
          diff_days := some dd
          diff_amount := some da
          transaction_ids := [bank.transaction_hash] }
      else r) }

/-- The outer loop over the bank-transaction snapshot, carrying the store, the
`matched_bank_ids` / `matched_order_ids` sets and `suggestions_count`. -/
def match_loop (orders : List Order) :
    List BankTxn → Store → List String → List ℕ → ℕ → Store × List String × List ℕ × ℕ
  | [], s, mb, mo, c => (s, mb, mo, c)
  | bank :: rest, s, mb, mo, c =>
    if bank.transaction_hash ∈ mb then match_loop orders rest s mb mo c
    else
      match try_match_order bank mo orders with
      | none => match_loop orders rest s mb mo c
      | some o =>
        match_loop orders rest (apply_match s bank o)
          (mb ++ [bank.transaction_hash]) (mo ++ [o.order_id]) (c + 1)

/-- The `run_suggestions` (no write failures): Pass A link suggestions, then the
bank/order matching loop over the unmatched snapshots taken *after* Pass A
(Pass A changes no `reconciliation_status`).  Returns the final store,
`links_count` and `suggestions_count`. -/
def run_suggestions (s : Store) : Store × ℕ × ℕ :=
  let la := suggest_transaction_links s
  let s1 : Store := { s with transaction_links := s.transaction_links ++ la.1 }
  let r := match_loop (unmatchedOrders s1) (unmatchedBank s1) s1 [] [] 0
  (r.1, la.2, r.2.2.2)

/-! ## `run_suggestions` with fallible writes

The source executes every `INSERT`/`UPDATE` inside one `try:` block with
`except Exception: conn.rollback(); raise` and a single `conn.commit()` at the
end.  Writes are numbered in issue order; `wf n = true` means the `n`-th
`cursor.execute` raises.  An exception yields `Except.error s₀`: the rollback
leaves the *committed* store at its initial value and the exception propagates
to the caller (the script exits nonzero). -/

/-- Pass A with fallible link `INSERT`s (one write per link). -/
def link_loop_exc (wf : ℕ → Bool) (existing : List (String × String)) (mains : List BankTxn) :
    List BankTxn → List TransactionLink → List String → ℕ → ℕ →
    Option (List TransactionLink × ℕ × ℕ)
  | [], acc, _, c, n => some (acc, c, n)
  | comm :: rest, acc, linked, c, n =>
    if comm.transaction_hash ∈ linked then link_loop_exc wf existing mains rest acc linked c n
    else
      match (pick_best existing comm mains).2 with
      | some m =>
        if 70 ≤ (pick_best existing comm mains).1 then
          if wf n then none
          else
            link_loop_exc wf existing mains rest
              (acc ++ [⟨m.transaction_hash, comm.transaction_hash, "commission", "suggested"⟩])
              (linked ++ [comm.transaction_hash]) (c + 1) (n + 1)
        else link_loop_exc wf existing mains rest acc linked c n
      | none => link_loop_exc wf existing mains rest acc linked c n

/-- The matching loop with fallible `UPDATE`s (two writes per accepted pair;
failure of either aborts). -/
def match_loop_exc (wf : ℕ → Bool) (orders : List Order) :
    List BankTxn → Store → List String → List ℕ → ℕ → ℕ → Option (Store × ℕ × ℕ)
  | [], s, _, _, c, n => some (s, c, n)
  | bank :: rest, s, mb, mo, c, n =>
    if bank.transaction_hash ∈ mb then match_loop_exc wf orders rest s mb mo c n
    else
      match try_match_order bank mo orders with
      | none => match_loop_exc wf orders rest s mb mo c n
      | some o =>
        if wf n || wf (n + 1) then none
        else
          match_loop_exc wf orders rest (apply_match s bank o)
            (mb ++ [bank.transaction_hash]) (mo ++ [o.order_id]) (c + 1) (n + 2)

/-- The `run_suggestions` under the failure oracle `wf`.  `Except.error s` is the
raised-exception outcome: the committed store is the initial `s` (rollback) and
the caller sees the failure. -/
def run_suggestions_exc (wf : ℕ → Bool) (s : Store) : Except Store (Store × ℕ × ℕ) :=
  match link_loop_exc wf (link_pairs s.transaction_links)
      (s.bank_transactions.filter is_main) (s.bank_transactions.filter is_commission)
      [] [] 0 0 with
  | none => Except.error s
  | some (links, lc, n) =>
    let s1 : Store := { s with transaction_links := s.transaction_links ++ links }
    match match_loop_exc wf (unmatchedOrders s1) (unmatchedBank s1) s1 [] [] 0 n with
    | none => Except.error s
    | some (s2, cnt, _) => Except.ok (s2, lc, cnt)

/-! ## Ingestion: `process_bank_file.insert_transactions`

One `INSERT ... ON CONFLICT (transaction_hash) DO NOTHING` per processed row;
`cursor.rowcount > 0` increments `inserted`, otherwise `duplicates`.
(`bank_upload.insert_transactions` has the same conflict behaviour with the
counters named `inserted_count`/`skipped_count`.) -/

/-- A processed row as produced by `process_file` and handed to
`insert_transactions`. -/
structure ProcessedTxn where
  transaction_hash : String
  payer_sender : Option String
  transaction_date : DateV
  credit_amount : ℚ
  description : String
  extracted_reference : Option String
deriving DecidableEq

/-- The stored row an insert creates: fresh match fields and
`reconciliation_status = 'unmatched'`. -/
def insert_row (tx : ProcessedTxn) : BankTxn :=
  { transaction_hash := tx.transaction_hash
    payer_sender := tx.payer_sender
    transaction_date := tx.transaction_date
    credit_amount := tx.credit_amount
    description := tx.description
    extracted_reference := tx.extracted_reference
    reconciliation_status := "unmatched"
    match_reference_flag := false
    match_name_score := 0
    diff_days := none
    diff_amount := none
    order_id := none }

/-- One iteration of the insert loop: conflict on an existing
`transaction_hash` does nothing and counts a duplicate; otherwise the row is
appended and counted as inserted. -/
def insert_step (acc : List BankTxn × ℕ × ℕ) (tx : ProcessedTxn) : List BankTxn × ℕ × ℕ :=
  if acc.1.any (fun r => decide (r.transaction_hash = tx.transaction_hash)) then
    (acc.1, acc.2.1, acc.2.2 + 1)
  else
    (acc.1 ++ [insert_row tx], acc.2.1 + 1, acc.2.2)

/-- The `insert_transactions`: fold the insert loop over the processed rows;
returns `(store', inserted, duplicates)`. -/
def insert_transactions (store : List BankTxn) (txs : List ProcessedTxn) :
    List BankTxn × ℕ × ℕ :=
  txs.foldl insert_step (store, 0, 0)

/-! ## Column resolution and the missing-columns gate -/

/-- The `process_bank_file.COLUMN_MAPPING`. -/
def COLUMN_MAPPING : List (String × List String) :=
  [("date", ["date", "fecha", "transaction date", "trans date", "value date"]),
   ("payee/sender", ["payee/sender", "payee", "sender", "payer", "name", "customer",
                     "remitente", "pagador"]),
   ("credits", ["credits", "credit", "credit amount", "amount", "credito", "monto"]),
   ("description", ["description", "details", "narrative", "memo", "reference",
                    "descripcion", "detalle"]),
   ("balance", ["balance", "saldo", "running balance"]),
   ("debits", ["debits", "debit", "debit amount", "debito"])]

/-- The `COLUMN_MAPPING.get(target, [target])`. -/
def synonymsFor (target : String) : List String :=
  match COLUMN_MAPPING.find? (fun p => decide (p.1 = target)) with
  | some p => p.2
  | none => [target]

/-- The `process_bank_file.find_column`: lower-case/strip the sheet columns, try the
synonyms in order, return the original column at the first hit. -/
def find_column (cols : List String) (target : String) : Option String :=
  let lows := cols.map (fun c => pyLower (pyStrip c))
  (synonymsFor target).findSome? (fun name =>
    match lows.findIdx? (fun l => decide (l = pyLower name)) with
    | some i => cols.get? i
    | none => none)

/-- The `missing_cols` list of `process_bank_file.process_file` (lines 198–204):
only `date`, `credits` and `balance` are checked. -/
def process_file_missing (cols : List String) : List String :=
  (if (find_column cols "date").isNone then ["date"] else []) ++
  (if (find_column cols "credits").isNone then ["credits"] else []) ++
  (if (find_column cols "balance").isNone then ["balance"] else [])

/-- The structural gate of `process_bank_file.process_file`: on any missing
required column the whole batch aborts with the diagnostic and no rows are
ingested (`return None, "Missing required columns: ..."`). -/
def process_file_gate (cols : List String) : Except String Unit :=
  if process_file_missing cols = [] then Except.ok ()
  else Except.error ("Missing required columns: " ++
    String.intercalate ", " (process_file_missing cols))

/-- The `bank_transaction_processor.find_column`: a dict from lowered/stripped
column name to original column (later duplicates overwrite, hence the reversed
search), tried against the synonyms in order. -/
def bp_find_column (cols : List String) (names : List String) : Option String :=
  names.findSome? (fun name =>
    cols.reverse.find? (fun c => decide (pyLower (pyStrip c) = pyLower name)))

/-- The `missing_cols` list of `bank_transaction_processor.process_file`
(lines 162–172): `Date`, `Payee/Sender`, `Description`, `Credits` *and*
`Balance` are all required. -/
def bp_missing (cols : List String) : List String :=
  (if (bp_find_column cols ["Date", "Transaction Date", "Trans Date", "Fecha"]).isNone
    then ["Date"] else []) ++
  (if (bp_find_column cols ["Payee/Sender", "Payee", "Sender", "Name", "Payer",
      "Pagador"]).isNone then ["Payee/Sender"] else []) ++
  (if (bp_find_column cols ["Description", "Desc", "Details", "Descripcion", "Memo"]).isNone
    then ["Description"] else []) ++
  (if (bp_find_column cols ["Credits", "Credit", "Credit Amount", "Amount In",
      "Credito"]).isNone then ["Credits"] else []) ++
  (if (bp_find_column cols ["Balance", "Running Balance", "Saldo"]).isNone
    then ["Balance"] else [])

/-- The structural gate of `bank_transaction_processor.process_file`. -/
def bp_gate (cols : List String) : Except String Unit :=
  if bp_missing cols = [] then Except.ok ()
  else Except.error ("Missing required columns: " ++ String.intercalate ", " (bp_missing cols))

/-- The acceptance predicate of the order scan, as a standalone function: the
order is unclaimed, the amount tolerance and date window hold, and either the
references match or the name score strictly exceeds 70. -/
def order_accept (bank : BankTxn) (mo : List ℕ) (o : Order) : Bool :=
  !decide (o.order_id ∈ mo) &&
  (check_amount_match bank.credit_amount o.amount_total_fee &&
   (check_date_match bank.transaction_date o.order_date &&
    (check_reference_match bank.extracted_reference o.order_bank_reference ||
     decide (70 < check_name_match bank.payer_sender o.customer_name))))

/-- Store with two independently matchable bank/order pairs (by reference,
amount and date) and no commission-band transactions or links. -/
def c5Store : Store :=
  { bank_transactions :=
      [⟨"B1", none, DateV.vstr "2025-01-10", 20, "", some "AB111111",
        "unmatched", false, 0, none, none, none⟩,
       ⟨"B2", none, DateV.vstr "2025-01-11", 30, "", some "AB222222",
        "unmatched", false, 0, none, none, none⟩]
    orders :=
      [⟨1, none, DateV.vstr "2025-01-10", 20, some "AB111111",
        "unmatched", false, 0, none, none, []⟩,
       ⟨2, none, DateV.vstr "2025-01-11", 30, some "AB222222",
        "unmatched", false, 0, none, none, []⟩]
    transaction_links := [] }

/-- The order ids assigned to bank rows (`order_id` set). -/
def bankAssigned (l : List BankTxn) : List ℕ := l.filterMap (fun r => r.order_id)

/-- The bank hashes assigned to orders (head of the `transaction_ids` array;
the engine always writes singleton arrays). -/
def orderAssigned (l : List Order) : List String :=
  l.filterMap (fun o => o.transaction_ids.head?)

/-- Relation between an initial and a final bank row: untouched, or the initial
row was `unmatched` and the key is preserved. -/
def relB (a b : BankTxn) : Prop :=
  a = b ∨ (a.reconciliation_status = "unmatched" ∧ b.transaction_hash = a.transaction_hash)

/-- Relation between an initial and a final order row: untouched, or the
initial row was `unmatched` and the key is preserved. -/
def relO (a b : Order) : Prop :=
  a = b ∨ (a.reconciliation_status = "unmatched" ∧ b.order_id = a.order_id)

/-- Store for C1's counterexample: `COMM01` (amount 4) is a commission
candidate for main `MAIN01` (amount 20, same reference), and also fits order 1
by amount, date and reference. -/
def c1Store : Store :=
  { bank_transactions :=
      [⟨"MAIN01", none, DateV.vstr "2025-01-10", 20, "", some "AB123456",
        "unmatched", false, 0, none, none, none⟩,
       ⟨"COMM01", none, DateV.vstr "2025-01-12", 4, "", some "AB123456",
        "unmatched", false, 0, none, none, none⟩]
    orders :=
      [⟨1, none, DateV.vstr "2025-01-12", 9 / 2, some "AB123456",
        "unmatched", false, 0, none, none, []⟩]
    transaction_links := [] }

/-- Store for C4's counterexample: two rows share `transaction_hash` "H"; the
first is `unmatched` and matches order 1, the second is `confirmed`. -/
def c4Store : Store :=
  { bank_transactions :=
      [⟨"H", none, DateV.vstr "2025-01-10", 20, "MARK1", some "AB123456",
        "unmatched", false, 0, none, none, none⟩,
       ⟨"H", none, DateV.vstr "2025-01-12", 25, "MARK2", none,
        "confirmed", false, 0, none, none, none⟩]
    orders :=
      [⟨1, none, DateV.vstr "2025-01-10", 20, some "AB123456",
        "unmatched", false, 0, none, none, []⟩]
    transaction_links := [] }

/-- The store after Pass A: only `transaction_links` grows; `bank_transactions`
and `orders` are untouched. -/
def passAStore (s : Store) : Store :=
  { s with transaction_links := s.transaction_links ++ (suggest_transaction_links s).1 }

/-! # Theorems -/

/-- Sanity check of the SHA-256 implementation: FIPS 180-2 test vector for "abc". -/
theorem sha256_vector_abc :
    sha256HexStr "abc" = "ba7816bf8f01cfea414140de5dae2223b00361a396177a9cb410ff61f20015ad" := by
  decide

/-- Sanity check of the SHA-256 implementation: digest of the empty message. -/
theorem sha256_vector_empty :
    sha256HexStr "" = "e3b0c44298fc1c149afbf4c8996fb92427ae41e4649b934ca495991b7852b855" := by
  decide

/-- Sanity check of the ordinal arithmetic against values computed by CPython:
`date(2025,1,10).toordinal() = 739261`, `date(2024,2,29).toordinal() = 738945`,
`date(1,1,1).toordinal() = 1`. -/
theorem toOrdinal_vectors :
    toOrdinal 2025 1 10 = 739261 ∧ toOrdinal 2024 2 29 = 738945 ∧ toOrdinal 1 1 1 = 1 := by
  decide

/-- Sanity check of the scorer against CPython: `ratio("","") = 100`,
`ratio("","x") = 0`, `ratio("juan perez","juan perez") = 100`,
`ratio("abc","abd") = 67`. -/
theorem fuzz_ratio_vectors :
    fuzz_ratio "" "" = 100 ∧ fuzz_ratio "" "x" = 0 ∧
    fuzz_ratio "juan perez" "juan perez" = 100 ∧ fuzz_ratio "abc" "abd" = 67 := by
  decide

/-- Spot checks of the parser against the CPython implementation. -/
theorem parse_numeric_value_vectors :
    parse_numeric_value (PVal.pstr "1.234,56") = some (30864 / 25 : ℚ) ∧
    parse_numeric_value (PVal.pstr "-12.5") = some (-25 / 2 : ℚ) ∧
    parse_numeric_value (PVal.pstr " 150.00 ") = some 150 ∧
    parse_numeric_value (PVal.pstr "1.2.3") = none ∧
    parse_numeric_value (PVal.pstr "1.2,345") = none := by
  decide

/-- The order scan is exactly "first order satisfying `order_accept`". -/
theorem try_match_order_eq_find? (bank : BankTxn) (mo : List ℕ) :
    ∀ orders : List Order, try_match_order bank mo orders = orders.find? (order_accept bank mo)
  | [] => rfl
  | o :: rest => by
    simp only [try_match_order, List.find?, order_accept]
    by_cases h1 : o.order_id ∈ mo
    · simp [h1, try_match_order_eq_find? bank mo rest, order_accept]
    · cases ha : check_amount_match bank.credit_amount o.amount_total_fee <;>
        cases hd : check_date_match bank.transaction_date o.order_date <;>
          cases hr : check_reference_match bank.extracted_reference o.order_bank_reference <;>
            simp [h1, ha, hd, hr, try_match_order_eq_find? bank mo rest, order_accept] <;>
              by_cases hn : 70 < check_name_match bank.payer_sender o.customer_name <;>
                simp [hn, try_match_order_eq_find? bank mo rest, order_accept]

/-- C3: among candidate orders passing the amount tolerance and the date window,
a case-insensitive reference match is accepted regardless of the name score
(even score 0) — the scan acceptance is `tolerances ∧ (reference ∨ score > 70)`,
and the scan stops at the first accepted order (`List.find?`), so at most one
order is assigned to the transaction per run. -/
theorem C3_reference_precedence :
    (∀ (bank : BankTxn) (mo : List ℕ) (orders : List Order),
      try_match_order bank mo orders = orders.find? (order_accept bank mo)) ∧
    (∀ (bank : BankTxn) (mo : List ℕ) (o : Order) (rest : List Order),
      o.order_id ∉ mo →
      check_amount_match bank.credit_amount o.amount_total_fee = true →
      check_date_match bank.transaction_date o.order_date = true →
      check_reference_match bank.extracted_reference o.order_bank_reference = true →
      try_match_order bank mo (o :: rest) = some o) := by
  refine ⟨fun bank mo orders => try_match_order_eq_find? bank mo orders, ?_⟩
  intro bank mo o rest h1 ha hd hr
  simp only [try_match_order]
  simp [h1, ha, hd, hr]

/-- Witness for C3 at a concrete reference-matching pair whose name score is 0
(both names absent). -/
theorem C3_reference_precedence_witness :
    check_name_match none none = 0 ∧
    try_match_order
      { transaction_hash := "B", payer_sender := none,
        transaction_date := DateV.vstr "2025-01-10", credit_amount := 150,
        description := "", extracted_reference := some "AB123456",
        reconciliation_status := "unmatched", match_reference_flag := false,
        match_name_score := 0, diff_days := none, diff_amount := none, order_id := none }
      []
      [{ order_id := 7, customer_name := none, order_date := DateV.vstr "2025-01-10",
         amount_total_fee := 150, order_bank_reference := some "ab123456",
         reconciliation_status := "unmatched", match_reference_flag := false,
         match_name_score := 0, diff_days := none, diff_amount := none,
         transaction_ids := [] }] =
      some
        { order_id := 7, customer_name := none, order_date := DateV.vstr "2025-01-10",
          amount_total_fee := 150, order_bank_reference := some "ab123456",
          reconciliation_status := "unmatched", match_reference_flag := false,
          match_name_score := 0, diff_days := none, diff_amount := none,
          transaction_ids := [] } :=
  ⟨by decide, C3_reference_precedence.2 _ _ _ _ (by decide) (by decide) (by decide) (by decide)⟩

/-- C9: the amount check accepts exactly when `|bank − order| ≤ 0.99` (so 0.99
passes, 1.00 fails) and the date check accepts exactly when the bank date minus
the order date lies in `[-2, 3]` days (boundary days pass, one day beyond
fails). -/
theorem C9_tolerance_boundaries :
    (∀ b o : ℚ, check_amount_match b o = decide (|b - o| ≤ 99 / 100)) ∧
    check_amount_match (10099 / 100 : ℚ) 100 = true ∧
    check_amount_match 101 100 = false ∧
    (∀ b o : DateV, check_date_match b o =
      match parse_date b, parse_date o with
      | some bd, some od => decide (-2 ≤ (bd : ℤ) - (od : ℤ)) && decide ((bd : ℤ) - (od : ℤ) ≤ 3)
      | _, _ => false) ∧
    check_date_match (DateV.vstr "2025-01-08") (DateV.vstr "2025-01-10") = true ∧
    check_date_match (DateV.vstr "2025-01-07") (DateV.vstr "2025-01-10") = false ∧
    check_date_match (DateV.vstr "2025-01-13") (DateV.vstr "2025-01-10") = true ∧
    check_date_match (DateV.vstr "2025-01-14") (DateV.vstr "2025-01-10") = false := by
  refine ⟨fun b o => rfl, by decide, by decide, fun b o => rfl, by decide, by decide, by decide,
    by decide⟩

/-- C6 counterexample: the claim requires `parse("1,234.56") = 1234.56`, but the
parser rejects any input whose last `.` comes after the last `,` (US grouping),
returning invalid. -/
theorem C6_counterexample :
    parse_numeric_value (PVal.pstr "1,234.56") = none ∧
    parse_numeric_value (PVal.pstr "1,234.56") ≠ some (30864 / 25 : ℚ) := by
  constructor
  · decide
  · decide

/-- C6 amended: `parse("1.234,56") = 1234.56`; `parse("1,234.56")` is invalid
(a `.` after a `,` is rejected rather than treated as the decimal point);
`parse("12 34")` and `parse("1,234,567")` are invalid; and universally: internal
whitespace is rejected, more than one `,` is rejected, and when both separators
are present with the `.` later the input is rejected. -/
theorem C6_amount_parser_amended :
    parse_numeric_value (PVal.pstr "1.234,56") = some (30864 / 25 : ℚ) ∧
    parse_numeric_value (PVal.pstr "1,234.56") = none ∧
    parse_numeric_value (PVal.pstr "12 34") = none ∧
    parse_numeric_value (PVal.pstr "1,234,567") = none ∧
    (∀ s : String, (pyStrip s).data.any pyIsSpace = true →
      parse_numeric_value (PVal.pstr s) = none) ∧
    (∀ s : String, 1 < countChar ',' (pyStrip s) →
      parse_numeric_value (PVal.pstr s) = none) ∧
    (∀ s : String, 0 < countChar '.' (pyStrip s) → 0 < countChar ',' (pyStrip s) →
      pyRfind ',' (pyStrip s) < pyRfind '.' (pyStrip s) →
      parse_numeric_value (PVal.pstr s) = none) := by
  refine ⟨by decide, by decide, by decide, by decide, ?_, ?_, ?_⟩
  · intro s h
    simp only [parse_numeric_value]
    split_ifs <;> simp_all
  · intro s h
    simp only [parse_numeric_value]
    split_ifs <;> simp_all <;> omega
  · intro s h1 h2 h3
    simp only [parse_numeric_value]
    split_ifs <;> simp_all <;> omega

/-- Witness for C6 (amended): the universal rejection clauses at concrete
inputs. -/
theorem C6_amount_parser_amended_witness :
    parse_numeric_value (PVal.pstr "12 34") = none ∧
    parse_numeric_value (PVal.pstr "1,2,3") = none ∧
    parse_numeric_value (PVal.pstr "1,2.3") = none :=
  ⟨C6_amount_parser_amended.2.2.2.2.1 "12 34" (by decide),
   C6_amount_parser_amended.2.2.2.2.2.1 "1,2,3" (by decide),
   C6_amount_parser_amended.2.2.2.2.2.2 "1,2.3" (by decide) (by decide) (by decide)⟩

/-- C10 counterexample: "." and "," are neither missing nor empty, both
normalize to the empty string, yet the name score is 100 (not 0): `fuzz.ratio`
of two empty strings is 100 (`difflib` defines the ratio of two empty sequences
as 1.0).  With references absent, such a pair passing the tolerances is matched
through the name-similarity path. -/
theorem C10_counterexample :
    normalize_name (some ".") = "" ∧ normalize_name (some ",") = "" ∧
    ("." : String) ≠ "" ∧ ("," : String) ≠ "" ∧
    check_name_match (some ".") (some ",") = 100 ∧
    try_match_order
      { transaction_hash := "B", payer_sender := some ".",
        transaction_date := DateV.vstr "2025-01-10", credit_amount := 150,
        description := "", extracted_reference := none,
        reconciliation_status := "unmatched", match_reference_flag := false,
        match_name_score := 0, diff_days := none, diff_amount := none, order_id := none }
      []
      [{ order_id := 7, customer_name := some ",", order_date := DateV.vstr "2025-01-10",
         amount_total_fee := 150, order_bank_reference := none,
         reconciliation_status := "unmatched", match_reference_flag := false,
         match_name_score := 0, diff_days := none, diff_amount := none,
         transaction_ids := [] }] =
      some
        { order_id := 7, customer_name := some ",", order_date := DateV.vstr "2025-01-10",
          amount_total_fee := 150, order_bank_reference := none,
          reconciliation_status := "unmatched", match_reference_flag := false,
          match_name_score := 0, diff_days := none, diff_amount := none,
          transaction_ids := [] } := by
  decide

/-- C10 amended: the score is 0 when either name is *missing or the empty
string* (Python falsiness) — and such a pair can pass the scan only via the
reference branch; but a non-empty name that merely *normalizes* to the empty
string is scored by `fuzz.ratio` on empty strings, which yields 100. -/
theorem C10_empty_names_amended :
    (∀ b o : Option String, b.getD "" = "" ∨ o.getD "" = "" → check_name_match b o = 0) ∧
    (∀ (bank : BankTxn) (o : Order) (mo : List ℕ),
      bank.payer_sender.getD "" = "" ∨ o.customer_name.getD "" = "" →
      check_reference_match bank.extracted_reference o.order_bank_reference = false →
      try_match_order bank mo [o] = none) ∧
    check_name_match (some ".") (some ",") = 100 := by
  have hscore : ∀ b o : Option String, b.getD "" = "" ∨ o.getD "" = "" →
      check_name_match b o = 0 := by
    intro b o h
    rcases h with h | h <;> simp [check_name_match, h]
  refine ⟨hscore, ?_, by decide⟩
  intro bank o mo hempty href
  have h0 := hscore bank.payer_sender o.customer_name hempty
  rw [try_match_order_eq_find?]
  simp [List.find?, order_accept, href, h0]

/-- Witness for C10 (amended) at a concrete pair with an empty payer name and no
references: score 0 and no match. -/
theorem C10_empty_names_amended_witness :
    check_name_match (some "") (some "JUAN PEREZ") = 0 ∧
    try_match_order
      { transaction_hash := "B", payer_sender := some "",
        transaction_date := DateV.vstr "2025-01-10", credit_amount := 150,
        description := "", extracted_reference := none,
        reconciliation_status := "unmatched", match_reference_flag := false,
        match_name_score := 0, diff_days := none, diff_amount := none, order_id := none }
      []
      [{ order_id := 7, customer_name := some "JUAN PEREZ",
         order_date := DateV.vstr "2025-01-10", amount_total_fee := 150,
         order_bank_reference := none, reconciliation_status := "unmatched",
         match_reference_flag := false, match_name_score := 0, diff_days := none,
         diff_amount := none, transaction_ids := [] }] = none :=
  ⟨C10_empty_names_amended.1 (some "") (some "JUAN PEREZ") (Or.inl rfl),
   C10_empty_names_amended.2.1 _ _ [] (Or.inl rfl) (by decide)⟩

/-- Right cancellation for string append. -/
theorem str_cancel_right {x y s : String} (h : x ++ s = y ++ s) : x = y := by
  have hd : x.data ++ s.data = y.data ++ s.data := by
    simpa [String.data_append] using congrArg String.data h
  have hxy := List.append_cancel_right hd
  cases x; cases y; exact congrArg String.mk hxy

/-- Left cancellation for string append. -/
theorem str_cancel_left {x y s : String} (h : s ++ x = s ++ y) : x = y := by
  have hd : s.data ++ x.data = s.data ++ y.data := by
    simpa [String.data_append] using congrArg String.data h
  have hxy := List.append_cancel_left hd
  cases x; cases y; exact congrArg String.mk hxy

/-- The `hashInput` in fully right-associated form. -/
theorem hashInput_assoc (r : HashRow) :
    hashInput r = r.balance.getD "" ++ ("|" ++ (r.date.getD "" ++ ("|" ++
      (r.credit_amount.getD "" ++ ("|" ++ r.payer_sender.getD ""))))) := by
  simp [hashInput, String.append_assoc]

/-- C2 counterexample: in `bank_transaction_processor`, the fingerprint of a row
does not involve the payer at all (`create_hash(balance, date, amount)`), so two
rows differing only in the payer field receive the *same* digest — the claim's
"changes whenever any single one of the four fields changes" fails. -/
theorem C2_counterexample :
    processorRowFingerprint "2024-01-02 00:00:00" "ALICE" "50.0" "100.0" =
      processorRowFingerprint "2024-01-02 00:00:00" "BOB" "50.0" "100.0" ∧
    ("ALICE" : String) ≠ "BOB" :=
  ⟨rfl, by decide⟩

/-- C2 amended: `process_bank_file.create_transaction_hash` is the SHA-256 hex
digest of the UTF-8 encoding of `balance|date|amount|payer` (that field order),
with the empty string for a missing field; it depends only on the four rendered
fields (determinism), and its *hash input* changes whenever any single rendered
field changes; `bank_transaction_processor.create_hash`, by contrast, hashes
only `balance|date|amount` and is insensitive to the payer. -/
theorem C2_fingerprint_amended :
    (∀ row : HashRow, create_transaction_hash row =
      sha256Hex (utf8Encode (row.balance.getD "" ++ "|" ++ row.date.getD "" ++ "|" ++
        row.credit_amount.getD "" ++ "|" ++ row.payer_sender.getD ""))) ∧
    (∀ r1 r2 : HashRow, r1.balance.getD "" = r2.balance.getD "" →
      r1.date.getD "" = r2.date.getD "" →
      r1.credit_amount.getD "" = r2.credit_amount.getD "" →
      r1.payer_sender.getD "" = r2.payer_sender.getD "" →
      create_transaction_hash r1 = create_transaction_hash r2) ∧
    (∀ r1 r2 : HashRow, r1.date.getD "" = r2.date.getD "" →
      r1.credit_amount.getD "" = r2.credit_amount.getD "" →
      r1.payer_sender.getD "" = r2.payer_sender.getD "" →
      r1.balance.getD "" ≠ r2.balance.getD "" → hashInput r1 ≠ hashInput r2) ∧
    (∀ r1 r2 : HashRow, r1.balance.getD "" = r2.balance.getD "" →
      r1.credit_amount.getD "" = r2.credit_amount.getD "" →
      r1.payer_sender.getD "" = r2.payer_sender.getD "" →
      r1.date.getD "" ≠ r2.date.getD "" → hashInput r1 ≠ hashInput r2) ∧
    (∀ r1 r2 : HashRow, r1.balance.getD "" = r2.balance.getD "" →
      r1.date.getD "" = r2.date.getD "" →
      r1.payer_sender.getD "" = r2.payer_sender.getD "" →
      r1.credit_amount.getD "" ≠ r2.credit_amount.getD "" → hashInput r1 ≠ hashInput r2) ∧
    (∀ r1 r2 : HashRow, r1.balance.getD "" = r2.balance.getD "" →
      r1.date.getD "" = r2.date.getD "" →
      r1.credit_amount.getD "" = r2.credit_amount.getD "" →
      r1.payer_sender.getD "" ≠ r2.payer_sender.getD "" → hashInput r1 ≠ hashInput r2) ∧
    (∀ date payer payer' amount balance : String,
      processorRowFingerprint date payer amount balance =
      processorRowFingerprint date payer' amount balance) := by
  refine ⟨fun row => rfl, ?_, ?_, ?_, ?_, ?_, fun d p p' a b => rfl⟩
  · intro r1 r2 hb hd ha hp
    simp [create_transaction_hash, sha256HexStr, hashInput, hb, hd, ha, hp]
  · intro r1 r2 hd ha hp hne heq
    apply hne
    rw [hashInput_assoc, hashInput_assoc, hd, ha, hp] at heq
    exact str_cancel_right heq
  · intro r1 r2 hb ha hp hne heq
    apply hne
    rw [hashInput_assoc, hashInput_assoc, hb, ha, hp] at heq
    exact str_cancel_right (str_cancel_left (str_cancel_left heq))
  · intro r1 r2 hb hd hp hne heq
    apply hne
    rw [hashInput_assoc, hashInput_assoc, hb, hd, hp] at heq
    exact str_cancel_right
      (str_cancel_left (str_cancel_left (str_cancel_left (str_cancel_left heq))))
  · intro r1 r2 hb hd ha hne heq
    apply hne
    rw [hashInput_assoc, hashInput_assoc, hb, hd, ha] at heq
    exact str_cancel_left (str_cancel_left (str_cancel_left
      (str_cancel_left (str_cancel_left (str_cancel_left heq)))))

/-- Witness for C2 (amended): the single-field sensitivity clauses at concrete
rows. -/
theorem C2_fingerprint_amended_witness :
    hashInput ⟨some "2024-01-02", some "100.0", some "50.0", some "ALICE"⟩ ≠
      hashInput ⟨some "2024-01-02", some "100.0", some "50.0", some "BOB"⟩ ∧
    hashInput ⟨some "2024-01-02", some "100.0", some "50.0", some "ALICE"⟩ ≠
      hashInput ⟨some "2024-01-02", some "200.0", some "50.0", some "ALICE"⟩ :=
  ⟨C2_fingerprint_amended.2.2.2.2.2.1 _ _ rfl rfl rfl (by decide),
   C2_fingerprint_amended.2.2.1 _ _ rfl rfl rfl (by decide)⟩

/-- C8 counterexample: a sheet with exactly the columns Date, Payer,
Description, Credits resolves all four claim-required concepts, yet both
ingestion gates abort the batch: `balance` is a *required* column in both cited
implementations. -/
theorem C8_counterexample :
    (find_column ["Date", "Payer", "Description", "Credits"] "date").isSome = true ∧
    (find_column ["Date", "Payer", "Description", "Credits"] "payee/sender").isSome = true ∧
    (find_column ["Date", "Payer", "Description", "Credits"] "description").isSome = true ∧
    (find_column ["Date", "Payer", "Description", "Credits"] "credits").isSome = true ∧
    process_file_gate ["Date", "Payer", "Description", "Credits"] =
      Except.error "Missing required columns: balance" ∧
    bp_gate ["Date", "Payer", "Description", "Credits"] =
      Except.error "Missing required columns: Balance" := by
  decide

/-- C8 amended: `process_bank_file.process_file` aborts iff one of `date`,
`credits`, `balance` is unresolvable (payer and description are *not* required
there); `bank_transaction_processor.process_file` aborts iff one of its five
columns — including `Balance` — is unresolvable.  In both, resolution is
case-insensitive synonym lookup and the abort reports the missing columns and
ingests nothing. -/
theorem C8_missing_columns_amended (cols : List String) :
    (process_file_gate cols = Except.ok () ↔
      ((find_column cols "date").isSome ∧ (find_column cols "credits").isSome ∧
       (find_column cols "balance").isSome)) ∧
    (bp_gate cols = Except.ok () ↔
      ((bp_find_column cols ["Date", "Transaction Date", "Trans Date", "Fecha"]).isSome ∧
       (bp_find_column cols ["Payee/Sender", "Payee", "Sender", "Name", "Payer",
          "Pagador"]).isSome ∧
       (bp_find_column cols ["Description", "Desc", "Details", "Descripcion", "Memo"]).isSome ∧
       (bp_find_column cols ["Credits", "Credit", "Credit Amount", "Amount In",
          "Credito"]).isSome ∧
       (bp_find_column cols ["Balance", "Running Balance", "Saldo"]).isSome)) := by
  constructor
  · cases h1 : find_column cols "date" <;> cases h2 : find_column cols "credits" <;>
      cases h3 : find_column cols "balance" <;>
        simp [process_file_gate, process_file_missing, h1, h2, h3]
  · cases h1 : bp_find_column cols ["Date", "Transaction Date", "Trans Date", "Fecha"] <;>
      cases h2 : bp_find_column cols ["Payee/Sender", "Payee", "Sender", "Name", "Payer",
        "Pagador"] <;>
      cases h3 : bp_find_column cols ["Description", "Desc", "Details", "Descripcion",
        "Memo"] <;>
      cases h4 : bp_find_column cols ["Credits", "Credit", "Credit Amount", "Amount In",
        "Credito"] <;>
      cases h5 : bp_find_column cols ["Balance", "Running Balance", "Saldo"] <;>
        simp [bp_gate, bp_missing, h1, h2, h3, h4, h5]

/-- Witness for C8 (amended): a complete header set passes both gates. -/
theorem C8_missing_columns_amended_witness :
    process_file_gate ["Date", "Payer", "Description", "Credits", "Balance"] =
      Except.ok () ∧
    bp_gate ["Date", "Payer", "Description", "Credits", "Balance"] = Except.ok () :=
  ⟨(C8_missing_columns_amended
      ["Date", "Payer", "Description", "Credits", "Balance"]).1.mpr
     ⟨by decide, by decide, by decide⟩,
   (C8_missing_columns_amended
      ["Date", "Payer", "Description", "Credits", "Balance"]).2.mpr
     ⟨by decide, by decide, by decide, by decide, by decide⟩⟩

/-- The insert step, as an equation. -/
theorem insert_step_eq (st : List BankTxn) (i d : ℕ) (t : ProcessedTxn) :
    insert_step (st, i, d) t =
      if st.any (fun r => decide (r.transaction_hash = t.transaction_hash)) then
        (st, i, d + 1)
      else (st ++ [insert_row t], i + 1, d) := rfl

/-- A hash present in the store stays present through the insert loop. -/
theorem insert_loop_any (h : String) :
    ∀ (txs : List ProcessedTxn) (st : List BankTxn) (i d : ℕ),
      st.any (fun r => decide (r.transaction_hash = h)) = true →
      (txs.foldl insert_step (st, i, d)).1.any (fun r => decide (r.transaction_hash = h)) =
        true
  | [], st, i, d, hh => hh
  | t :: rest, st, i, d, hh => by
    rw [List.foldl_cons, insert_step_eq]
    split_ifs with hc
    · exact insert_loop_any h rest st i (d + 1) hh
    · refine insert_loop_any h rest (st ++ [insert_row t]) (i + 1) d ?_
      simp only [List.any_append, hh, Bool.true_or]

/-- After the insert loop, every processed row's hash is present in the
store. -/
theorem insert_loop_mem :
    ∀ (txs : List ProcessedTxn) (st : List BankTxn) (i d : ℕ),
      ∀ t ∈ txs,
        (txs.foldl insert_step (st, i, d)).1.any
          (fun r => decide (r.transaction_hash = t.transaction_hash)) = true
  | t0 :: rest, st, i, d, t, ht => by
    rcases List.mem_cons.1 ht with rfl | ht'
    · rw [List.foldl_cons, insert_step_eq]
      split_ifs with hc
      · exact insert_loop_any _ rest st i (d + 1) hc
      · refine insert_loop_any _ rest (st ++ [insert_row t]) (i + 1) d ?_
        simp [insert_row]
    · rw [List.foldl_cons]
      exact insert_loop_mem rest _ _ _ t ht'

/-- If every processed row's hash is already present, the insert loop changes
nothing and counts every row as a duplicate. -/
theorem insert_loop_alldup :
    ∀ (txs : List ProcessedTxn) (st : List BankTxn) (i d : ℕ),
      (∀ t ∈ txs, st.any (fun r => decide (r.transaction_hash = t.transaction_hash)) = true) →
      txs.foldl insert_step (st, i, d) = (st, i, d + txs.length)
  | [], st, i, d, _ => rfl
  | t :: rest, st, i, d, hall => by
    rw [List.foldl_cons, insert_step_eq, if_pos (hall t (List.mem_cons_self t rest)),
      insert_loop_alldup rest st i (d + 1)
        (fun t' ht' => hall t' (List.mem_cons_of_mem t ht'))]
    simp only [List.length_cons]
    congr 2
    omega

/-- The two counters always sum to the number of processed rows. -/
theorem insert_loop_count :
    ∀ (txs : List ProcessedTxn) (st : List BankTxn) (i d : ℕ),
      (txs.foldl insert_step (st, i, d)).2.1 + (txs.foldl insert_step (st, i, d)).2.2 =
        i + d + txs.length
  | [], st, i, d => rfl
  | t :: rest, st, i, d => by
    rw [List.foldl_cons, insert_step_eq]
    split_ifs with hc
    · rw [insert_loop_count rest st i (d + 1)]; simp only [List.length_cons]; omega
    · rw [insert_loop_count rest (st ++ [insert_row t]) (i + 1) d]
      simp only [List.length_cons]; omega

/-- C7 counterexample: against the empty store, ingesting the two-row batch
`[t, t]` (identical rows, equal fingerprints) reports `inserted = 1`,
`duplicates = 1`; re-running the same rows reports `inserted = 0` but
`duplicates = 2 ≠ 1 = inserted` of the first run, refuting the claimed equality
`duplicates₂ = inserted₁`. -/
theorem C7_counterexample :
    (insert_transactions []
      [⟨"H1", some "A", DateV.vstr "2025-01-01", 10, "", none⟩,
       ⟨"H1", some "A", DateV.vstr "2025-01-01", 10, "", none⟩]).2.1 = 1 ∧
    (insert_transactions []
      [⟨"H1", some "A", DateV.vstr "2025-01-01", 10, "", none⟩,
       ⟨"H1", some "A", DateV.vstr "2025-01-01", 10, "", none⟩]).2.2 = 1 ∧
    (insert_transactions
      (insert_transactions []
        [⟨"H1", some "A", DateV.vstr "2025-01-01", 10, "", none⟩,
         ⟨"H1", some "A", DateV.vstr "2025-01-01", 10, "", none⟩]).1
      [⟨"H1", some "A", DateV.vstr "2025-01-01", 10, "", none⟩,
       ⟨"H1", some "A", DateV.vstr "2025-01-01", 10, "", none⟩]).2.1 = 0 ∧
    (insert_transactions
      (insert_transactions []
        [⟨"H1", some "A", DateV.vstr "2025-01-01", 10, "", none⟩,
         ⟨"H1", some "A", DateV.vstr "2025-01-01", 10, "", none⟩]).1
      [⟨"H1", some "A", DateV.vstr "2025-01-01", 10, "", none⟩,
       ⟨"H1", some "A", DateV.vstr "2025-01-01", 10, "", none⟩]).2.2 = 2 ∧
    (2 : ℕ) ≠ 1 := by
  decide

/-- C7 amended: re-ingesting the same rows inserts nothing and leaves the store
unchanged, and the second run's duplicate count equals the *number of rows*
(`= inserted₁ + duplicates₁`); it equals the first run's inserted count exactly
when the first run reported no duplicates (e.g. when the batch has no internal
fingerprint collisions against the store or itself). -/
theorem C7_idempotent_ingestion_amended (store : List BankTxn) (txs : List ProcessedTxn) :
    (insert_transactions (insert_transactions store txs).1 txs).2.1 = 0 ∧
    (insert_transactions (insert_transactions store txs).1 txs).1 =
      (insert_transactions store txs).1 ∧
    (insert_transactions (insert_transactions store txs).1 txs).2.2 = txs.length ∧
    (insert_transactions store txs).2.1 + (insert_transactions store txs).2.2 =
      txs.length ∧
    ((insert_transactions store txs).2.2 = 0 →
      (insert_transactions (insert_transactions store txs).1 txs).2.2 =
        (insert_transactions store txs).2.1) := by
  have hrun2 : insert_transactions (insert_transactions store txs).1 txs =
      ((insert_transactions store txs).1, 0, txs.length) := by
    unfold insert_transactions
    simpa using insert_loop_alldup txs _ 0 0 (fun t ht => insert_loop_mem txs store 0 0 t ht)
  have hcount : (insert_transactions store txs).2.1 + (insert_transactions store txs).2.2 =
      txs.length := by
    unfold insert_transactions
    simpa using insert_loop_count txs store 0 0
  refine ⟨by rw [hrun2], by rw [hrun2], by rw [hrun2], hcount, fun hd0 => ?_⟩
  rw [hrun2]
  simp only
  omega

/-- Witness for C7 (amended) on a duplicate-free one-row batch: the second run's
duplicates equal the first run's inserted count. -/
theorem C7_idempotent_ingestion_amended_witness :
    (insert_transactions
      (insert_transactions [] [⟨"H9", none, DateV.vnull, 5, "", none⟩]).1
      [⟨"H9", none, DateV.vnull, 5, "", none⟩]).2.2 =
      (insert_transactions [] [⟨"H9", none, DateV.vnull, 5, "", none⟩]).2.1 :=
  (C7_idempotent_ingestion_amended [] [⟨"H9", none, DateV.vnull, 5, "", none⟩]).2.2.2.2
    (by decide)

/-- C5 counterexample: on `c5Store` both pairs match when no write fails
(`suggestions_count = 2`).  When the first `UPDATE` of the *second* pair (write
number 2) fails, the claim requires pair 1's suggestion to be preserved and only
pair 2 to stay unmatched; instead the run raises, the transaction is rolled
back, and the committed store is the *initial* store, in which pair 1 is not
`suggested_match` either. -/
theorem C5_counterexample :
    (run_suggestions c5Store).2.2 = 2 ∧
    run_suggestions_exc (fun n => decide (n = 2)) c5Store = Except.error c5Store ∧
    c5Store.bank_transactions.any (fun r =>
      decide (r.transaction_hash = "B1") &&
      decide (r.reconciliation_status = "suggested_match")) = false := by
  decide

/-- An exception outcome always carries the initial store: the single
`conn.commit()` sits after the whole loop, so `conn.rollback(); raise` leaves
the committed state untouched. -/
theorem run_suggestions_exc_error (s : Store) (wf : ℕ → Bool) :
    ∀ r, run_suggestions_exc wf s = Except.error r → r = s := by
  intro r h
  unfold run_suggestions_exc at h
  cases hl : link_loop_exc wf (link_pairs s.transaction_links)
      (s.bank_transactions.filter is_main) (s.bank_transactions.filter is_commission)
      [] [] 0 0 with
  | none => rw [hl] at h; exact (Except.error.inj h).symm
  | some v =>
    obtain ⟨links, lc, n⟩ := v
    rw [hl] at h
    simp only at h
    cases hm : match_loop_exc wf
        (unmatchedOrders { s with transaction_links := s.transaction_links ++ links })
        (unmatchedBank { s with transaction_links := s.transaction_links ++ links })
        { s with transaction_links := s.transaction_links ++ links } [] [] 0 n with
    | none => rw [hm] at h; exact (Except.error.inj h).symm
    | some w =>
      obtain ⟨s2, cnt, n2⟩ := w
      rw [hm] at h
      exact Except.noConfusion h

/-- With no write failures, Pass A under the exception model agrees with the
pure Pass A (the write counter threads through unchanged semantics). -/
theorem link_loop_exc_false (existing : List (String × String)) (mains : List BankTxn) :
    ∀ (comms : List BankTxn) (acc : List TransactionLink) (linked : List String) (c n : ℕ),
      ∃ n', link_loop_exc (fun _ => false) existing mains comms acc linked c n =
        some ((link_loop existing mains comms acc linked c).1,
              (link_loop existing mains comms acc linked c).2, n')
  | [], acc, linked, c, n => ⟨n, rfl⟩
  | comm :: rest, acc, linked, c, n => by
    simp only [link_loop_exc, link_loop]
    by_cases hm : comm.transaction_hash ∈ linked
    · simp only [if_pos hm]
      exact link_loop_exc_false existing mains rest acc linked c n
    · simp only [if_neg hm]
      cases hp : (pick_best existing comm mains).2 with
      | none => exact link_loop_exc_false existing mains rest acc linked c n
      | some m =>
        by_cases hs : 70 ≤ (pick_best existing comm mains).1
        · simp only [if_pos hs, Bool.false_eq_true, if_false]
          exact link_loop_exc_false existing mains rest _ _ (c + 1) (n + 1)
        · simp only [if_neg hs]
          exact link_loop_exc_false existing mains rest acc linked c n

/-- With no write failures, the matching loop under the exception model agrees
with the pure matching loop. -/
theorem match_loop_exc_false (orders : List Order) :
    ∀ (banks : List BankTxn) (s : Store) (mb : List String) (mo : List ℕ) (c n : ℕ),
      ∃ n', match_loop_exc (fun _ => false) orders banks s mb mo c n =
        some ((match_loop orders banks s mb mo c).1,
              (match_loop orders banks s mb mo c).2.2.2, n')
  | [], s, mb, mo, c, n => ⟨n, rfl⟩
  | bank :: rest, s, mb, mo, c, n => by
    simp only [match_loop_exc, match_loop]
    by_cases hm : bank.transaction_hash ∈ mb
    · simp only [if_pos hm]
      exact match_loop_exc_false orders rest s mb mo c n
    · simp only [if_neg hm]
      cases ht : try_match_order bank mo orders with
      | none => exact match_loop_exc_false orders rest s mb mo c n
      | some o =>
        simp only [Bool.or_self, Bool.false_eq_true, if_false]
        exact match_loop_exc_false orders rest _ _ _ (c + 1) (n + 2)

/-- C5 amended: a write failure anywhere in the run aborts the *whole* run —
the exception propagates to the caller (non-zero exit) and the rollback leaves
the committed store equal to the initial store, so no suggestion of the run
survives, not even those whose own writes succeeded; absent failures, the
exception-modelled run commits exactly the pure run's result. -/
theorem C5_write_failure_amended (s : Store) (wf : ℕ → Bool) :
    (∀ r, run_suggestions_exc wf s = Except.error r → r = s) ∧
    run_suggestions_exc (fun _ => false) s = Except.ok (run_suggestions s) := by
  refine ⟨run_suggestions_exc_error s wf, ?_⟩
  unfold run_suggestions_exc run_suggestions suggest_transaction_links
  obtain ⟨n1, h1⟩ := link_loop_exc_false (link_pairs s.transaction_links)
    (s.bank_transactions.filter is_main) (s.bank_transactions.filter is_commission) [] [] 0 0
  rw [h1]
  simp only
  obtain ⟨n2, h2⟩ := match_loop_exc_false
    (unmatchedOrders { s with transaction_links := s.transaction_links ++
      (link_loop (link_pairs s.transaction_links) (s.bank_transactions.filter is_main)
        (s.bank_transactions.filter is_commission) [] [] 0).1 })
    (unmatchedBank { s with transaction_links := s.transaction_links ++
      (link_loop (link_pairs s.transaction_links) (s.bank_transactions.filter is_main)
        (s.bank_transactions.filter is_commission) [] [] 0).1 })
    { s with transaction_links := s.transaction_links ++
      (link_loop (link_pairs s.transaction_links) (s.bank_transactions.filter is_main)
        (s.bank_transactions.filter is_commission) [] [] 0).1 }
    [] [] 0 n1
  rw [h2]

/-- Witness for C5 (amended): the rollback clause applied at `c5Store` with the
write-2 failure, and the no-failure agreement at `c5Store`. -/
theorem C5_write_failure_amended_witness :
    c5Store = c5Store ∧
    run_suggestions_exc (fun _ => false) c5Store = Except.ok (run_suggestions c5Store) :=
  ⟨(C5_write_failure_amended c5Store (fun n => decide (n = 2))).1 c5Store (by decide),
   (C5_write_failure_amended c5Store (fun _ => false)).2⟩

/-- C1 counterexample: in one run over `c1Store`, the transaction `COMM01`
receives a commission link in Pass A *and* is matched to order 1 in the
bank/order pass — Pass A neither changes `reconciliation_status` nor feeds the
matched-id sets, so link targets are claimed twice across passes. -/
theorem C1_counterexample :
    ((run_suggestions c1Store).1.transaction_links.any (fun l =>
      decide (l.linked_transaction_hash = "COMM01") &&
      decide (l.primary_transaction_hash = "MAIN01") &&
      decide (l.status = "suggested"))) = true ∧
    ((run_suggestions c1Store).1.bank_transactions.any (fun r =>
      decide (r.transaction_hash = "COMM01") && decide (r.order_id = some 1) &&
      decide (r.reconciliation_status = "suggested_match"))) = true := by
  decide

/-- C4 counterexample: on `c4Store` the `UPDATE ... WHERE transaction_hash = 'H'`
issued for the unmatched row also rewrites the row whose status is `confirmed`
(same key, no status guard in the `WHERE` clause): after the run no `confirmed`
row remains and the second row has been given `suggested_match` and an
`order_id`. -/
theorem C4_counterexample :
    (c4Store.bank_transactions.any (fun r =>
      decide (r.description = "MARK2") && decide (r.reconciliation_status = "confirmed"))) =
      true ∧
    ((run_suggestions c4Store).1.bank_transactions.any (fun r =>
      decide (r.description = "MARK2") && decide (r.reconciliation_status = "confirmed"))) =
      false ∧
    ((run_suggestions c4Store).1.bank_transactions.any (fun r =>
      decide (r.description = "MARK2") && decide (r.reconciliation_status = "suggested_match") &&
      decide (r.order_id = some 1))) = true := by
  decide

/-- A successful order scan returns an order from the scanned list whose id is
not yet claimed. -/
theorem try_match_order_mem (bank : BankTxn) (mo : List ℕ) :
    ∀ (orders : List Order) (o : Order), try_match_order bank mo orders = some o →
      o ∈ orders ∧ o.order_id ∉ mo
  | [], o, h => nomatch h
  | o' :: rest, o, h => by
    simp only [try_match_order] at h
    split_ifs at h with h1 h2 h3 h4 h5
    · exact ⟨List.mem_cons_of_mem _ (try_match_order_mem bank mo rest o h).1,
        (try_match_order_mem bank mo rest o h).2⟩
    · exact ⟨List.mem_cons_of_mem _ (try_match_order_mem bank mo rest o h).1,
        (try_match_order_mem bank mo rest o h).2⟩
    · exact ⟨List.mem_cons_of_mem _ (try_match_order_mem bank mo rest o h).1,
        (try_match_order_mem bank mo rest o h).2⟩
    · exact ⟨by rw [← Option.some.inj h]; exact List.mem_cons_self o' rest,
        by rw [← Option.some.inj h]; exact h1⟩
    · exact ⟨by rw [← Option.some.inj h]; exact List.mem_cons_self o' rest,
        by rw [← Option.some.inj h]; exact h1⟩
    · exact ⟨List.mem_cons_of_mem _ (try_match_order_mem bank mo rest o h).1,
        (try_match_order_mem bank mo rest o h).2⟩

/-- The `apply_match` rewrites rows in place and never changes a bank row's key. -/
theorem apply_match_bank_keys (s : Store) (bank : BankTxn) (o : Order) :
    (apply_match s bank o).bank_transactions.map (fun r => r.transaction_hash) =
      s.bank_transactions.map (fun r => r.transaction_hash) := by
  simp only [apply_match, List.map_map]
  exact List.map_congr_left (fun r _ => by
    by_cases h : r.transaction_hash = bank.transaction_hash <;> simp [h])

/-- The `apply_match` never changes an order row's key. -/
theorem apply_match_order_keys (s : Store) (bank : BankTxn) (o : Order) :
    (apply_match s bank o).orders.map (fun r => r.order_id) =
      s.orders.map (fun r => r.order_id) := by
  simp only [apply_match, List.map_map]
  exact List.map_congr_left (fun r _ => by
    by_cases h : r.order_id = o.order_id <;> simp [h])

/-- The assigned order ids after `apply_match`, as a guarded `filterMap` over
the previous rows. -/
theorem apply_match_bankAssigned (s : Store) (bank : BankTxn) (o : Order) :
    bankAssigned (apply_match s bank o).bank_transactions =
      s.bank_transactions.filterMap (fun r =>
        if r.transaction_hash = bank.transaction_hash then some o.order_id else r.order_id) := by
  simp only [bankAssigned, apply_match, List.filterMap_map]
  refine List.filterMap_congr (fun r _ => ?_)
  by_cases h : r.transaction_hash = bank.transaction_hash <;> simp [h]

/-- The assigned bank hashes after `apply_match`, as a guarded `filterMap`. -/
theorem apply_match_orderAssigned (s : Store) (bank : BankTxn) (o : Order) :
    orderAssigned (apply_match s bank o).orders =
      s.orders.filterMap (fun r =>
        if r.order_id = o.order_id then some bank.transaction_hash
        else r.transaction_ids.head?) := by
  simp only [orderAssigned, apply_match, List.filterMap_map]
  refine List.filterMap_congr (fun r _ => ?_)
  by_cases h : r.order_id = o.order_id <;> simp [h]

/-- One guarded update of a keyed `filterMap` keeps the assigned values
distinct: with unique keys, values previously drawn from `B`, and a fresh value
`k0 ∉ B`, the updated assignment is still duplicate-free and draws from
`B ∪ {k0}`. -/
theorem filterMap_guard_nodup {α κ β : Type} [DecidableEq κ] [DecidableEq β]
    (keyf : α → κ) (valf : α → Option β) (key : κ) (k0 : β) (B : List β) :
    ∀ l : List α,
      (l.map keyf).Nodup →
      (∀ k ∈ l.filterMap valf, k ∈ B) →
      (l.filterMap valf).Nodup →
      k0 ∉ B →
      ((l.filterMap (fun r => if keyf r = key then some k0 else valf r)).Nodup ∧
       ∀ k ∈ l.filterMap (fun r => if keyf r = key then some k0 else valf r),
         k ∈ B ∨ k = k0)
  | [] => by simp
  | r :: l => by
    intro hkeys hsub hnd hk0
    simp only [List.map_cons, List.nodup_cons] at hkeys
    have hmem_tail : ∀ k ∈ l.filterMap valf, k ∈ (r :: l).filterMap valf := by
      intro k hkk
      rcases List.mem_filterMap.1 hkk with ⟨a, ha, hfa⟩
      exact List.mem_filterMap.2 ⟨a, List.mem_cons_of_mem r ha, hfa⟩
    have hsub' : ∀ k ∈ l.filterMap valf, k ∈ B := fun k hkk => hsub k (hmem_tail k hkk)
    have hnd' : (l.filterMap valf).Nodup := by
      cases hv : valf r
      · rw [List.filterMap_cons, hv] at hnd; exact hnd
      · rw [List.filterMap_cons, hv] at hnd; exact (List.nodup_cons.1 hnd).2
    by_cases hk : keyf r = key
    · have hcongr : l.filterMap (fun x => if keyf x = key then some k0 else valf x) =
          l.filterMap valf := by
        refine List.filterMap_congr (fun x hx => ?_)
        have hxk : keyf x ≠ key := fun hcontra => by
          rw [← hk] at hcontra
          exact hkeys.1 (hcontra ▸ List.mem_map_of_mem keyf hx)
        simp [hxk]
      rw [List.filterMap_cons, if_pos hk, hcongr]
      constructor
      · exact List.nodup_cons.2 ⟨fun hcontra => hk0 (hsub' k0 hcontra), hnd'⟩
      · intro k hkmem
        rcases List.mem_cons.1 hkmem with rfl | hkmem'
        · exact Or.inr rfl
        · exact Or.inl (hsub' k hkmem')
    · obtain ⟨ihnd, ihmem⟩ :=
        filterMap_guard_nodup keyf valf key k0 B l hkeys.2 hsub' hnd' hk0
      cases hv : valf r with
      | none =>
        rw [List.filterMap_cons, if_neg hk, hv]
        exact ⟨ihnd, ihmem⟩
      | some k =>
        have hkB : k ∈ B := hsub k (by rw [List.filterMap_cons, hv]; exact List.mem_cons_self _ _)
        have hknot : k ∉ l.filterMap (fun x => if keyf x = key then some k0 else valf x) := by
          intro hcontra
          rcases List.mem_filterMap.1 hcontra with ⟨a, ha, hga⟩
          by_cases hka : keyf a = key
          · rw [if_pos hka] at hga
            exact hk0 ((Option.some.inj hga) ▸ hkB)
          · rw [if_neg hka] at hga
            have : k ∈ l.filterMap valf := List.mem_filterMap.2 ⟨a, ha, hga⟩
            rw [List.filterMap_cons, hv] at hnd
            exact (List.nodup_cons.1 hnd).1 this
        rw [List.filterMap_cons, if_neg hk, hv]
        constructor
        · exact List.nodup_cons.2 ⟨hknot, ihnd⟩
        · intro k' hk'
          rcases List.mem_cons.1 hk' with rfl | hk''
          · exact Or.inl hkB
          · exact ihmem k' hk''

/-- The matching loop preserves distinctness of the run's assignments: if the
keys are unique and the already-assigned values are tracked by the matched-id
sets, they remain duplicate-free (each step claims an order id not in
`matched_order_ids` and a bank hash not in `matched_bank_ids`). -/
theorem match_loop_assigned (orders : List Order) :
    ∀ (banks : List BankTxn) (s : Store) (mb : List String) (mo : List ℕ) (c : ℕ),
      (s.bank_transactions.map (fun r => r.transaction_hash)).Nodup →
      (s.orders.map (fun o => o.order_id)).Nodup →
      (∀ k ∈ bankAssigned s.bank_transactions, k ∈ mo) →
      (bankAssigned s.bank_transactions).Nodup →
      (∀ h ∈ orderAssigned s.orders, h ∈ mb) →
      (orderAssigned s.orders).Nodup →
      ((bankAssigned (match_loop orders banks s mb mo c).1.bank_transactions).Nodup ∧
       (orderAssigned (match_loop orders banks s mb mo c).1.orders).Nodup)
  | [], s, mb, mo, c, _, _, _, h4, _, h6 => ⟨h4, h6⟩
  | bank :: rest, s, mb, mo, c, h1, h2, h3, h4, h5, h6 => by
    simp only [match_loop]
    by_cases hmb : bank.transaction_hash ∈ mb
    · rw [if_pos hmb]
      exact match_loop_assigned orders rest s mb mo c h1 h2 h3 h4 h5 h6
    · rw [if_neg hmb]
      cases ht : try_match_order bank mo orders with
      | none => exact match_loop_assigned orders rest s mb mo c h1 h2 h3 h4 h5 h6
      | some o =>
        obtain ⟨_, honot⟩ := try_match_order_mem bank mo orders o ht
        have h3' : ∀ k ∈ s.bank_transactions.filterMap (fun r => r.order_id), k ∈ mo := h3
        have h4' : (s.bank_transactions.filterMap (fun r => r.order_id)).Nodup := h4
        have h5' : ∀ k ∈ s.orders.filterMap (fun o => o.transaction_ids.head?), k ∈ mb := h5
        have h6' : (s.orders.filterMap (fun o => o.transaction_ids.head?)).Nodup := h6
        obtain ⟨hbnd, hbmem⟩ := filterMap_guard_nodup (fun r => r.transaction_hash)
          (fun r => r.order_id) bank.transaction_hash o.order_id mo
          s.bank_transactions h1 h3' h4' honot
        obtain ⟨hond, homem2⟩ := filterMap_guard_nodup (fun r => r.order_id)
          (fun r => r.transaction_ids.head?) o.order_id bank.transaction_hash mb
          s.orders h2 h5' h6' hmb
        refine match_loop_assigned orders rest (apply_match s bank o)
          (mb ++ [bank.transaction_hash]) (mo ++ [o.order_id]) (c + 1) ?_ ?_ ?_ ?_ ?_ ?_
        · rw [apply_match_bank_keys]; exact h1
        · rw [apply_match_order_keys]; exact h2
        · rw [apply_match_bankAssigned]
          intro k hk
          rcases hbmem k hk with hkB | rfl
          · exact List.mem_append_left _ hkB
          · exact List.mem_append_right _ (List.mem_singleton.2 rfl)
        · rw [apply_match_bankAssigned]; exact hbnd
        · rw [apply_match_orderAssigned]
          intro k hk
          rcases homem2 k hk with hkB | rfl
          · exact List.mem_append_left _ hkB
          · exact List.mem_append_right _ (List.mem_singleton.2 rfl)
        · rw [apply_match_orderAssigned]; exact hond

/-- The final store of a run is the matching loop's store over the post-Pass-A
snapshots. -/
theorem run_suggestions_fst (s : Store) :
    (run_suggestions s).1 =
      (match_loop (unmatchedOrders (passAStore s)) (unmatchedBank (passAStore s))
        (passAStore s) [] [] 0).1 := rfl

/-- C1 amended: within the bank-to-order matching pass, assignments are
bipartite and at-most-one-each — starting from a store with unique keys and no
pre-existing assignments, after a run no order id is held by two bank rows and
no bank hash appears in two orders' `transaction_ids`.  (Pass A's commission
links are *not* covered by any exclusivity: see the counterexample.) -/
theorem C1_matching_exclusive_amended (s : Store)
    (hbn : (s.bank_transactions.map (fun r => r.transaction_hash)).Nodup)
    (hon : (s.orders.map (fun o => o.order_id)).Nodup)
    (hcb : ∀ r ∈ s.bank_transactions, r.order_id = none)
    (hco : ∀ o ∈ s.orders, o.transaction_ids = []) :
    (bankAssigned (run_suggestions s).1.bank_transactions).Nodup ∧
    (orderAssigned (run_suggestions s).1.orders).Nodup := by
  have hb0 : bankAssigned s.bank_transactions = [] :=
    List.filterMap_eq_nil_iff.2 (fun r hr => hcb r hr)
  have ho0 : orderAssigned s.orders = [] :=
    List.filterMap_eq_nil_iff.2 (fun o ho => by
      show o.transaction_ids.head? = none
      rw [hco o ho]; rfl)
  rw [run_suggestions_fst]
  refine match_loop_assigned (unmatchedOrders (passAStore s)) (unmatchedBank (passAStore s))
    (passAStore s) [] [] 0 hbn hon ?_ ?_ ?_ ?_
  · intro k hk
    rw [show bankAssigned (passAStore s).bank_transactions = [] from hb0] at hk
    cases hk
  · rw [show bankAssigned (passAStore s).bank_transactions = [] from hb0]
    exact List.nodup_nil
  · intro k hk
    rw [show orderAssigned (passAStore s).orders = [] from ho0] at hk
    cases hk
  · rw [show orderAssigned (passAStore s).orders = [] from ho0]
    exact List.nodup_nil

/-- Witness for C1 (amended) on `c1Store`, which has unique keys and no
pre-existing assignments. -/
theorem C1_matching_exclusive_amended_witness :
    (bankAssigned (run_suggestions c1Store).1.bank_transactions).Nodup ∧
    (orderAssigned (run_suggestions c1Store).1.orders).Nodup :=
  C1_matching_exclusive_amended c1Store (by decide) (by decide)
    (by intro r hr; fin_cases hr <;> rfl) (by intro o ho; fin_cases ho <;> rfl)

/-- Map the right-hand list of a `Forall₂`, given that the relation survives the
mapping pointwise (with access to left membership). -/
theorem forall₂_map_right {α β : Type} {R : α → β → Prop} {f : β → β} :
    ∀ {l1 : List α} {l2 : List β}, List.Forall₂ R l1 l2 →
      (∀ a b, a ∈ l1 → R a b → R a (f b)) →
      List.Forall₂ R l1 (l2.map f)
  | _, _, List.Forall₂.nil, _ => List.Forall₂.nil
  | _, _, List.Forall₂.cons hab h, hp =>
    List.Forall₂.cons (hp _ _ (List.mem_cons_self _ _) hab)
      (forall₂_map_right h (fun a b ha => hp a b (List.mem_cons_of_mem _ ha)))

/-- The matching loop only rewrites rows whose key belongs to a row it is
iterating over — which are rows that were `unmatched` in the reference store —
so every row is either untouched or was `unmatched` (given unique keys). -/
theorem match_loop_rel (s0 : Store) (orders : List Order)
    (hbn : (s0.bank_transactions.map (fun r => r.transaction_hash)).Nodup)
    (hon : (s0.orders.map (fun o => o.order_id)).Nodup)
    (hor : ∀ o ∈ orders, o ∈ s0.orders ∧ o.reconciliation_status = "unmatched") :
    ∀ (banks : List BankTxn) (s : Store) (mb : List String) (mo : List ℕ) (c : ℕ),
      (∀ b ∈ banks, b ∈ s0.bank_transactions ∧ b.reconciliation_status = "unmatched") →
      List.Forall₂ relB s0.bank_transactions s.bank_transactions →
      List.Forall₂ relO s0.orders s.orders →
      (List.Forall₂ relB s0.bank_transactions
         (match_loop orders banks s mb mo c).1.bank_transactions ∧
       List.Forall₂ relO s0.orders (match_loop orders banks s mb mo c).1.orders)
  | [], s, mb, mo, c, _, hfb, hfo => ⟨hfb, hfo⟩
  | bank :: rest, s, mb, mo, c, hbanks, hfb, hfo => by
    simp only [match_loop]
    by_cases hmb : bank.transaction_hash ∈ mb
    · rw [if_pos hmb]
      exact match_loop_rel s0 orders hbn hon hor rest s mb mo c
        (fun b hb => hbanks b (List.mem_cons_of_mem _ hb)) hfb hfo
    · rw [if_neg hmb]
      cases ht : try_match_order bank mo orders with
      | none =>
        exact match_loop_rel s0 orders hbn hon hor rest s mb mo c
          (fun b hb => hbanks b (List.mem_cons_of_mem _ hb)) hfb hfo
      | some o =>
        obtain ⟨homem, _⟩ := try_match_order_mem bank mo orders o ht
        obtain ⟨hbankmem, hbankun⟩ := hbanks bank (List.mem_cons_self _ _)
        obtain ⟨hoin, houn⟩ := hor o homem
        refine match_loop_rel s0 orders hbn hon hor rest (apply_match s bank o)
          (mb ++ [bank.transaction_hash]) (mo ++ [o.order_id]) (c + 1)
          (fun b hb => hbanks b (List.mem_cons_of_mem _ hb)) ?_ ?_
        · refine forall₂_map_right hfb ?_
          intro a b ha hab
          by_cases hkey : b.transaction_hash = bank.transaction_hash
          · have hahash : a.transaction_hash = bank.transaction_hash := by
              rcases hab with rfl | ⟨_, hh⟩
              · exact hkey
              · rw [← hh]; exact hkey
            have haeq : a = bank :=
              List.inj_on_of_nodup_map hbn ha hbankmem (by rw [hahash])
            refine Or.inr ⟨haeq ▸ hbankun, ?_⟩
            rw [if_pos hkey]
            show b.transaction_hash = a.transaction_hash
            rw [hkey, hahash]
          · rw [if_neg hkey]
            exact hab
        · refine forall₂_map_right hfo ?_
          intro a b ha hab
          by_cases hkey : b.order_id = o.order_id
          · have haid : a.order_id = o.order_id := by
              rcases hab with rfl | ⟨_, hh⟩
              · exact hkey
              · rw [← hh]; exact hkey
            have haeq : a = o :=
              List.inj_on_of_nodup_map hon ha hoin (by rw [haid])
            refine Or.inr ⟨haeq ▸ houn, ?_⟩
            rw [if_pos hkey]
            show b.order_id = a.order_id
            rw [hkey, haid]
          · rw [if_neg hkey]
            exact hab

/-- C4 amended: the engine's `UPDATE`s carry no `reconciliation_status` guard —
they are keyed on `transaction_hash` / `order_id` alone (see the
counterexample) — but the run's `SELECT`s filter on `unmatched`, so with unique
keys every row a run modifies was `unmatched` when the run read it: each row of
the final store is either identical to its initial row or that initial row was
`unmatched`. -/
theorem C4_unmatched_guard_amended (s : Store)
    (hbn : (s.bank_transactions.map (fun r => r.transaction_hash)).Nodup)
    (hon : (s.orders.map (fun o => o.order_id)).Nodup) :
    List.Forall₂ (fun a b => a = b ∨ a.reconciliation_status = "unmatched")
      s.bank_transactions (run_suggestions s).1.bank_transactions ∧
    List.Forall₂ (fun a b => a = b ∨ a.reconciliation_status = "unmatched")
      s.orders (run_suggestions s).1.orders := by
  rw [run_suggestions_fst]
  have hor : ∀ o ∈ unmatchedOrders (passAStore s),
      o ∈ s.orders ∧ o.reconciliation_status = "unmatched" := by
    intro o ho
    have := List.mem_filter.1 ho
    exact ⟨this.1, of_decide_eq_true this.2⟩
  have hbanks : ∀ b ∈ unmatchedBank (passAStore s),
      b ∈ s.bank_transactions ∧ b.reconciliation_status = "unmatched" := by
    intro b hb
    have := List.mem_filter.1 hb
    exact ⟨this.1, of_decide_eq_true this.2⟩
  obtain ⟨h1, h2⟩ := match_loop_rel s (unmatchedOrders (passAStore s)) hbn hon hor
    (unmatchedBank (passAStore s)) (passAStore s) [] [] 0 hbanks
    (List.forall₂_same.2 (fun a _ => Or.inl rfl))
    (List.forall₂_same.2 (fun a _ => Or.inl rfl))
  exact ⟨h1.imp (fun a b hab => hab.imp id And.left),
         h2.imp (fun a b hab => hab.imp id And.left)⟩

/-- Witness for C4 (amended) on `c1Store` (unique keys). -/
theorem C4_unmatched_guard_amended_witness :
    List.Forall₂ (fun a b => a = b ∨ a.reconciliation_status = "unmatched")
      c1Store.bank_transactions (run_suggestions c1Store).1.bank_transactions ∧
    List.Forall₂ (fun a b => a = b ∨ a.reconciliation_status = "unmatched")
      c1Store.orders (run_suggestions c1Store).1.orders :=
  C4_unmatched_guard_amended c1Store (by decide) (by decide)

end Conciliation
